import Mathlib

/-!
# Shallow embedding of the eHealth data pipeline

This file embeds the core of the eHealth ETL / warehouse repository in Lean 4:

* `part2_pipeline/utils/etl_pipeline.py` (`NIH_ETL_Pipeline`: `transform`,
  `_bulk_create_patients`, `_load_batch_optimized`, `load`, `run`),
* `part2_pipeline/utils/db_helper.py` (`get_existing_image_indices`),
* `part2_pipeline/config.py` (`NIH_TO_ICD10_MAPPING`, `MODALITY_MAPPING`, `BATCH_SIZE`),
* `part1_data_modeling/generate_synthetic_data.py` (id schemes, diagnosis catalog),
* `part3_analytics/populate_warehouse.py` (`WarehouseETL`),
* `part3_analytics/run_warehouse_qa.py` (`WarehouseQA.run_all`).

The relational stores are modelled as lists of records; SQL statements become
list transformations; `ON CONFLICT ... DO NOTHING` becomes a guarded append;
`SERIAL` columns become explicit counters threaded through the state.
Pseudo-random choices (`random.*`, `faker`) are modelled as oracle functions
supplied as parameters; free-text columns filled from `faker` and never read
back by any of the verified code paths are omitted from the row types.
Python strings are modelled as `String`, with all string manipulation defined
on the underlying character lists so that everything evaluates by `decide`.
-/

namespace EHealth

/-! ## String and digit utilities -/

/-- Numeric value of an ASCII digit character (`'0'` ↦ 0, …, `'9'` ↦ 9). -/
def digitVal (c : Char) : Nat := c.toNat - 48

/-- Value of a most-significant-first list of decimal digit characters,
the semantics of Python `int(s)` / SQL `CAST(s AS INTEGER)` on digit strings. -/
def digitsToNat (ds : List Char) : Nat := ds.foldl (fun a c => a * 10 + digitVal c) 0

/-- Fuel-driven decimal printer; `fuel` bounds the recursion depth. -/
def decimalAux : Nat → Nat → List Char
  | 0, _ => []
  | fuel + 1, n =>
    if n < 10 then [Nat.digitChar n]
    else decimalAux fuel (n / 10) ++ [Nat.digitChar (n % 10)]

/-- Python `str(n)` for a natural number, as a list of digit characters. -/
def decimalDigits (n : Nat) : List Char := decimalAux (n + 1) n

/-- Python `str.zfill(w)`: left-pad with `'0'` up to width `w`. -/
def zfill (w : Nat) (ds : List Char) : List Char := List.replicate (w - ds.length) '0' ++ ds

/-- Fuel-driven core of Python `str.replace(pat, rep)`: leftmost,
non-overlapping occurrences of `pat` are replaced by `rep`. -/
def replaceAllAux (pat rep : List Char) : Nat → List Char → List Char
  | 0, s => s
  | _ + 1, [] => []
  | fuel + 1, c :: rest =>
    if pat ≠ [] ∧ pat.isPrefixOf (c :: rest) then
      rep ++ replaceAllAux pat rep fuel (List.drop pat.length (c :: rest))
    else
      c :: replaceAllAux pat rep fuel rest

/-- Python `s.replace(pat, rep)` on character lists. -/
def replaceAll (pat rep s : List Char) : List Char := replaceAllAux pat rep s.length s

/-- Python `int(s)` for a decimal digit string. -/
def pyInt (s : String) : Nat := digitsToNat s.toList

/-- SQL `CAST(REGEXP_REPLACE(s, '\D', '', 'g') AS INTEGER)`: delete every
non-digit character and read the rest as a decimal integer
(`populate_warehouse.py`, key-mapping of natural keys to integer keys). -/
def stripToInt (s : String) : Nat := digitsToNat (s.toList.filter Char.isDigit)

/-- SQL `LIKE 'PAT%'` (`_bulk_create_patients`, max-id query). -/
def likePAT (s : String) : Bool := "PAT".toList.isPrefixOf s.toList

/-- SQL `LIKE 'NIH_%'` (`get_existing_image_indices`): three literal
characters `NIH` followed by at least one arbitrary character
(`_` is the single-character wildcard). -/
def likeNIH (s : String) : Bool := "NIH".toList.isPrefixOf s.toList && decide (4 ≤ s.toList.length)

/-- Strict lexicographic comparison of character lists by code point, the
order underlying SQL `MAX` over `VARCHAR` in C collation. -/
def listLt : List Char → List Char → Bool
  | [], [] => false
  | [], _ :: _ => true
  | _ :: _, [] => false
  | a :: as, b :: bs => if a < b then true else if b < a then false else listLt as bs

/-- One aggregation step of SQL `MAX` over `VARCHAR`. -/
def sqlMaxStep (acc : Option String) (s : String) : Option String :=
  match acc with
  | none => some s
  | some m => if listLt m.toList s.toList then some s else some m

/-- SQL `MAX` over a list of strings (lexicographic), `NULL` on empty input. -/
def sqlMaxStr (l : List String) : Option String := l.foldl sqlMaxStep none

/-- Python whitespace test for `str.strip()`. -/
def isSpaceChar (c : Char) : Bool := c = ' ' ∨ c = '\t' ∨ c = '\n' ∨ c = '\r'

/-- Python `str.strip()`. -/
def pyStrip (s : String) : String :=
  String.mk (((s.toList.dropWhile isSpaceChar).reverse.dropWhile isSpaceChar).reverse)

/-- Core of `splitPipe`: split a character list at `'|'`. -/
def splitPipeAux : List Char → List Char → List (List Char)
  | [], acc => [acc.reverse]
  | c :: rest, acc =>
    if c = '|' then acc.reverse :: splitPipeAux rest [] else splitPipeAux rest (c :: acc)

/-- Python `s.split('|')` (pandas `str.split('|')`). -/
def splitPipe (s : String) : List String := (splitPipeAux s.toList []).map String.mk

/-- Keep-first deduplication, the semantics of pandas `drop_duplicates` and of
SQL `SELECT DISTINCT` up to row order. -/
def dedupFirstAux [DecidableEq α] : List α → List α → List α
  | [], _ => []
  | x :: rest, seen =>
    if x ∈ seen then dedupFirstAux rest seen else x :: dedupFirstAux rest (x :: seen)

/-- Keep-first deduplication of a list. -/
def dedupFirst [DecidableEq α] (l : List α) : List α := dedupFirstAux l []

/-- Python dict lookup for a dict built by inserting the listed key/value
pairs in order (later pairs overwrite earlier ones). -/
def dictGet (m : List (String × String)) (k : String) : Option String :=
  ((m.filter fun kv => decide (kv.1 = k)).getLast?).map (·.2)

/-! ## Configuration (`part2_pipeline/config.py`) -/

/-- `NIH_TO_ICD10_MAPPING` restricted to the ICD-10 code component (the
description component is never read by the pipeline). -/
def nihToIcd10Table : List (String × String) :=
  [("Atelectasis", "J98.11"), ("Cardiomegaly", "I51.7"), ("Effusion", "J94.8"),
   ("Infiltration", "J98.4"), ("Mass", "D49.2"), ("Nodule", "R91.8"),
   ("Pneumonia", "J18.9"), ("Pneumothorax", "J93.0"), ("Consolidation", "J18.1"),
   ("Edema", "J81.0"), ("Emphysema", "J43.9"), ("Fibrosis", "J84.9"),
   ("Pleural_Thickening", "J94.8"), ("Hernia", "K44.9"), ("No Finding", "R91.8")]

/-- Lookup in `NIH_TO_ICD10_MAPPING`. -/
def nihToIcd10 (label : String) : Option String := dictGet nihToIcd10Table label

/-- `MODALITY_MAPPING` lookup with the `'X-Ray'` default
(`MODALITY_MAPPING.get(x, 'X-Ray')` in `transform`). -/
def modalityMapped (viewPosition : String) : String :=
  (dictGet
    [("DX", "X-Ray"), ("CR", "X-Ray"), ("PA", "X-Ray"), ("AP", "X-Ray"),
     ("CT", "CT"), ("MR", "MRI"), ("US", "Ultrasound")] viewPosition).getD "X-Ray"

/-- `BATCH_SIZE` from `config.py`. -/
def BATCH_SIZE : Nat := 2000

/-! ## Operational data model

Row types keep exactly the columns that the verified code paths read or that
the claims mention; opaque `faker`-generated text columns are omitted. -/

/-- One row of the external NIH input CSV (`nih_with_reports.csv`). -/
structure InputRecord where
  imageIndex : String
  patientID : String
  patientAge : Nat
  patientGender : String
  findingLabels : String
  viewPosition : String
  reportType : String
  reportStatus : String
deriving Repr, DecidableEq

/-- Operational `patients` row. -/
structure Patient where
  patient_id : String
  date_of_birth : Nat
  gender : String
  contact_email : String
deriving Repr, DecidableEq

/-- Operational `facilities` row. -/
structure FacilityRow where
  facility_id : String
  facility_type : String
deriving Repr, DecidableEq

/-- Operational `diagnoses` catalog row. -/
structure DiagnosisRow where
  diagnosis_id : String
  diagnosis_code : String
deriving Repr, DecidableEq

/-- Operational `encounters` row. -/
structure Encounter where
  encounter_id : String
  patient_id : String
  facility_id : String
  encounter_date : Nat
  encounter_datetime : Nat
  encounter_type : String
deriving Repr, DecidableEq

/-- Operational `procedures` row (`procedure_id` is the `SERIAL` key). -/
structure ProcedureRow where
  procedure_id : Nat
  encounter_id : String
  procedure_code : String
  modality : String
  view_position : String
deriving Repr, DecidableEq

/-- Operational `encounter_diagnoses` row. -/
structure EncounterDiagnosis where
  encounter_id : String
  diagnosis_id : String
  diagnosis_rank : Nat
  is_primary : Bool
deriving Repr, DecidableEq

/-- Operational `reports` row (`report_id` is the `SERIAL` key). -/
structure ReportRow where
  report_id : Nat
  encounter_id : String
  report_type : String
  report_status : String
deriving Repr, DecidableEq

/-- The operational relational store.  `SERIAL` sequences are modelled as
explicit counters (they advance on every insertion attempt and are never
reset). -/
structure Store where
  patients : List Patient
  facilities : List FacilityRow
  diagnoses : List DiagnosisRow
  encounters : List Encounter
  procedures : List ProcedureRow
  encounterDiagnoses : List EncounterDiagnosis
  reports : List ReportRow
  nextProcedureId : Nat
  nextReportId : Nat
deriving Repr, DecidableEq

/-! ## Derived keys -/

/-- `'NIH_' + df['Image Index'].str.replace('.png', '')`
(the natural key derived in `transform`). -/
def nihProcedureCode (imageIndex : String) : String :=
  String.mk ("NIH_".toList ++ replaceAll ".png".toList [] imageIndex.toList)

/-- `f"NIH_{row['Image Index'].replace('.png', '')}_ENC"`
(encounter natural key in `_load_batch_optimized`). -/
def nihEncounterId (imageIndex : String) : String :=
  String.mk ("NIH_".toList ++ replaceAll ".png".toList [] imageIndex.toList ++ "_ENC".toList)

/-- `f"PAT{str(v).zfill(7)}"` (patient id synthesis in `_bulk_create_patients`). -/
def patIdStr (v : Nat) : String := String.mk ("PAT".toList ++ zfill 7 (decimalDigits v))

/-- `f"nih_patient_{pid}@external.com"`, the external-source correlation token. -/
def patientEmail (pid : String) : String :=
  String.mk ("nih_patient_".toList ++ pid.toList ++ "@external.com".toList)

/-- `f"ENC{str(i+1).zfill(8)}"`: the synthetic encounter id scheme of
`generate_synthetic_data.py` (encounter number `i+1`). -/
def synthEncounterId (i : Nat) : String :=
  String.mk ("ENC".toList ++ zfill 8 (decimalDigits (i + 1)))

/-! ## Reference cache and incremental filter queries -/

/-- `DatabaseHelper.get_existing_image_indices`:
`SELECT DISTINCT procedure_code FROM procedures WHERE procedure_code LIKE 'NIH_%'`. -/
def existingImageIndices (s : Store) : List String :=
  dedupFirst ((s.procedures.map (·.procedure_code)).filter likeNIH)

/-- `_load_diagnosis_cache`: the dict `{diagnosis_code: diagnosis_id}` built
from `SELECT diagnosis_code, diagnosis_id FROM diagnoses`. -/
def diagCache (s : Store) : List (String × String) :=
  s.diagnoses.map fun d => (d.diagnosis_code, d.diagnosis_id)

/-- `_load_facility_ids`:
`SELECT facility_id FROM facilities WHERE facility_type = 'Hospital'`. -/
def hospitalIds (s : Store) : List String :=
  (s.facilities.filter fun f => decide (f.facility_type = "Hospital")).map (·.facility_id)

/-! ## Conflict-safe inserts -/

/-- `INSERT INTO encounters ... ON CONFLICT (encounter_id) DO NOTHING`. -/
def insertEncounter (s : Store) (e : Encounter) : Store :=
  if s.encounters.any (fun x => decide (x.encounter_id = e.encounter_id)) then s
  else { s with encounters := s.encounters ++ [e] }

/-- `INSERT INTO procedures ... ON CONFLICT (encounter_id, procedure_code)
DO NOTHING`; the `SERIAL` sequence advances on every attempt. -/
def insertProcedure (s : Store) (encId code modality viewPos : String) : Store :=
  let row : ProcedureRow :=
    { procedure_id := s.nextProcedureId, encounter_id := encId,
      procedure_code := code, modality := modality, view_position := viewPos }
  if s.procedures.any (fun p =>
      decide (p.encounter_id = encId) && decide (p.procedure_code = code)) then
    { s with nextProcedureId := s.nextProcedureId + 1 }
  else
    { s with procedures := s.procedures ++ [row], nextProcedureId := s.nextProcedureId + 1 }

/-- `INSERT INTO encounter_diagnoses ... ON CONFLICT (encounter_id,
diagnosis_id) DO NOTHING`. -/
def insertEncDiag (s : Store) (row : EncounterDiagnosis) : Store :=
  if s.encounterDiagnoses.any (fun x =>
      decide (x.encounter_id = row.encounter_id) && decide (x.diagnosis_id = row.diagnosis_id)) then
    s
  else { s with encounterDiagnoses := s.encounterDiagnoses ++ [row] }

/-- `INSERT INTO reports ...` (no conflict clause: reports accumulate). -/
def insertReport (s : Store) (encId rType rStatus : String) : Store :=
  { s with
    reports := s.reports ++
      [{ report_id := s.nextReportId, encounter_id := encId,
         report_type := rType, report_status := rStatus }],
    nextReportId := s.nextReportId + 1 }

/-! ## Transform (`NIH_ETL_Pipeline.transform`) -/

/-- Pseudo-random choices of the pipeline, supplied as oracles:
`encDatetime i` models the `random.randint` draw for the `i`-th transformed
row; `facilityIdx` and `encTypeIdx` model `random.choices`/`random.choice`
per record in `_load_batch_optimized`. -/
structure Oracle where
  encDatetime : Nat → Nat
  facilityIdx : InputRecord → Nat
  encTypeIdx : InputRecord → Nat

/-- A transformed record: the input row plus the derived columns added by
`transform` (`nih_procedure_code`, `modality_mapped`, `encounter_datetime`,
`encounter_date`, `diagnosis_list`, `primary_diagnosis`). -/
structure TRecord where
  src : InputRecord
  procCode : String
  modality : String
  encounterDatetime : Nat
  encounterDate : Nat
  diagnosisList : List String
  primaryDiagnosis : String
deriving Repr, DecidableEq

/-- Derived columns for one filtered row, where `dt` is the oracle-drawn
encounter datetime (timestamps are abstract ticks; `encounter_date` is its
date part). -/
def mkTRecord (r : InputRecord) (dt : Nat) : TRecord :=
  { src := r, procCode := nihProcedureCode r.imageIndex,
    modality := modalityMapped r.viewPosition,
    encounterDatetime := dt, encounterDate := dt / 24,
    diagnosisList := splitPipe r.findingLabels,
    primaryDiagnosis := pyStrip ((splitPipe r.findingLabels).headD "") }

/-- Derived-column assignment over the filtered frame (one datetime draw per
remaining row, in order). -/
def mkTRecords (o : Oracle) (df : List InputRecord) : List TRecord :=
  df.enum.map fun p => mkTRecord p.2 (o.encDatetime p.1)

/-- Result of `transform`: the store (read, never written), the transformed
frame (`none` models the `return None` on an empty frame), and the values
assigned to `stats['records_skipped']` and `stats['records_processed']`. -/
structure TransformOut where
  store : Store
  result : Option (List TRecord)
  skipped : Nat
  processed : Nat
deriving Repr

/-- `NIH_ETL_Pipeline.transform`. -/
def transform (s : Store) (incremental : Bool) (df : List InputRecord) (o : Oracle) :
    TransformOut :=
  let existing := if incremental then existingImageIndices s else []
  let step :=
    if incremental ∧ existing ≠ [] then
      let dfNew := df.filter fun r => !decide (nihProcedureCode r.imageIndex ∈ existing)
      (dfNew, df.length - dfNew.length)
    else (df, 0)
  if step.1.length = 0 then ⟨s, none, step.2, 0⟩
  else ⟨s, some (mkTRecords o step.1), step.2, step.1.length⟩

/-! ## Bulk patient creation (`NIH_ETL_Pipeline._bulk_create_patients`) -/

/-- The gender normalisation in `_bulk_create_patients`. -/
def genderMap (g : String) : String :=
  if g = "M" then "M" else if g = "F" then "F" else "Other"

/-- Output of `_bulk_create_patients`: updated store, the returned
`patient_map` (external id → operational id, dict modelled as an
insertion-ordered association list), and the number of patients created
(the increment of `stats['patients_created']`). -/
structure BulkOut where
  store : Store
  pmap : List (String × String)
  created : Nat
deriving Repr

/-- One step of the `for _, row in unique_patients.iterrows()` loop:
state is (`new_patients`, `patient_map`, `last_id`). -/
def bulkStep (existing : List (String × String)) (now : Nat)
    (st : List Patient × List (String × String) × Nat) (t : String × Nat × String) :
    List Patient × List (String × String) × Nat :=
  let email := patientEmail t.1
  match dictGet existing email with
  | some pid0 => (st.1, st.2.1 ++ [(t.1, pid0)], st.2.2)
  | none =>
    let lastId1 := st.2.2 + 1
    let newId := patIdStr lastId1
    let p : Patient :=
      { patient_id := newId, date_of_birth := now - t.2.1 * 365,
        gender := genderMap t.2.2, contact_email := email }
    (st.1 ++ [p], st.2.1 ++ [(t.1, newId)], lastId1)

/-- `NIH_ETL_Pipeline._bulk_create_patients`; `now` models `datetime.now()`
as a day number. -/
def bulkCreatePatients (s : Store) (now : Nat) (batch : List TRecord) : BulkOut :=
  let uniques :=
    dedupFirst (batch.map fun r => (r.src.patientID, r.src.patientAge, r.src.patientGender))
  if uniques.isEmpty then ⟨s, [], 0⟩
  else
    let emails := uniques.map fun t => patientEmail t.1
    let existing :=
      (s.patients.filter fun p => decide (p.contact_email ∈ emails)).map
        fun p => (p.contact_email, p.patient_id)
    let lastId0 :=
      match sqlMaxStr ((s.patients.map (·.patient_id)).filter likePAT) with
      | some m => pyInt (String.mk (replaceAll "PAT".toList [] m.toList))
      | none => 5000
    let out := uniques.foldl (bulkStep existing now) ([], [], lastId0)
    ⟨{ s with patients := s.patients ++ out.1 }, out.2.1, out.1.length⟩

/-! ## Batch load (`NIH_ETL_Pipeline._load_batch_optimized` and `load`) -/

/-- `stats` counters of the pipeline object. -/
structure Stats where
  records_processed : Nat
  records_skipped : Nat
  patients_created : Nat
  encounters_created : Nat
  procedures_created : Nat
  diagnoses_assigned : Nat
  reports_created : Nat
deriving Repr, DecidableEq

/-- All-zero counters of a freshly constructed pipeline. -/
def Stats.init : Stats := ⟨0, 0, 0, 0, 0, 0, 0⟩

/-- The encounter row built for one record (step 2/5 of
`_load_batch_optimized`); `patientId` comes from `patient_map` and the
facility and encounter-type draws from the oracle. -/
def mkEncounter (facIds : List String) (o : Oracle) (r : TRecord) (patientId : String) :
    Encounter :=
  { encounter_id := nihEncounterId r.src.imageIndex,
    patient_id := patientId,
    facility_id := (facIds.getD (o.facilityIdx r.src % facIds.length) ""),
    encounter_date := r.encounterDate,
    encounter_datetime := r.encounterDatetime,
    encounter_type :=
      ["Inpatient", "Outpatient", "Emergency"].getD (o.encTypeIdx r.src % 3) "Inpatient" }

/-- The ranked diagnosis rows generated for one record (step 4/5 of
`_load_batch_optimized`): the first three pipe-delimited labels, each kept
only when it maps under `NIH_TO_ICD10_MAPPING` to a code found (truthy) in
the diagnosis cache; rank 1 is primary. -/
def diagRowsFor (cache : List (String × String)) (r : TRecord) : List EncounterDiagnosis :=
  (r.diagnosisList.take 3).enum.filterMap fun p =>
    let label := pyStrip p.2
    match nihToIcd10 label with
    | none => none
    | some icd =>
      match dictGet cache icd with
      | none => none
      | some did =>
        if did = "" then none
        else
          some { encounter_id := nihEncounterId r.src.imageIndex, diagnosis_id := did,
                 diagnosis_rank := p.1 + 1, is_primary := decide (p.1 + 1 = 1) }

/-- `NIH_ETL_Pipeline._load_batch_optimized`: bulk patient creation, then
conflict-safe bulk inserts of encounters, procedures, ranked diagnosis
assignments, and reports, updating the `stats` counters. -/
def loadBatch (cache : List (String × String)) (facIds : List String) (now : Nat)
    (o : Oracle) (acc : Store × Stats) (batch : List TRecord) : Store × Stats :=
  let bo := bulkCreatePatients acc.1 now batch
  let s1 := bo.store
  let st1 := { acc.2 with patients_created := acc.2.patients_created + bo.created }
  let encounters :=
    batch.map fun r => mkEncounter facIds o r ((dictGet bo.pmap r.src.patientID).getD "")
  let s2 := encounters.foldl insertEncounter s1
  let st2 := { st1 with encounters_created := st1.encounters_created + encounters.length }
  let s3 := batch.foldl
    (fun s r => insertProcedure s (nihEncounterId r.src.imageIndex) r.procCode
      r.modality r.src.viewPosition) s2
  let st3 := { st2 with procedures_created := st2.procedures_created + batch.length }
  let diagRows := (batch.map (diagRowsFor cache)).flatten
  let s4 := diagRows.foldl insertEncDiag s3
  let st4 := { st3 with diagnoses_assigned := st3.diagnoses_assigned + diagRows.length }
  let s5 := batch.foldl
    (fun s r => insertReport s (nihEncounterId r.src.imageIndex) r.src.reportType
      r.src.reportStatus) s4
  let st5 := { st4 with reports_created := st4.reports_created + batch.length }
  (s5, st5)

/-- `NIH_ETL_Pipeline.load`: `total_batches = len(df) // BATCH_SIZE + 1`
slices of `BATCH_SIZE` records, each loaded by `_load_batch_optimized`. -/
def load (cache : List (String × String)) (facIds : List String) (now : Nat)
    (o : Oracle) (s : Store) (st : Stats) (df : List TRecord) : Store × Stats :=
  (List.range (df.length / BATCH_SIZE + 1)).foldl
    (fun acc i => loadBatch cache facIds now o acc ((df.drop (i * BATCH_SIZE)).take BATCH_SIZE))
    (s, st)

/-- `NIH_ETL_Pipeline.run` for a freshly constructed pipeline
(`NIH_ETL_Pipeline(incremental=True)`): the reference cache is loaded at
construction, then extract → transform → load. -/
def run (s0 : Store) (now : Nat) (o : Oracle) (df : List InputRecord) : Store × Stats :=
  let cache := diagCache s0
  let facIds := hospitalIds s0
  let t := transform s0 true df o
  let st1 :=
    { Stats.init with records_skipped := t.skipped, records_processed := t.processed }
  match t.result with
  | none => (t.store, st1)
  | some tr => load cache facIds now o t.store st1 tr

/-! ## Part 1 reference data (`generate_synthetic_data.py`) -/

/-- The 50-entry static diagnosis catalog inserted by
`generate_synthetic_data.py` (`diagnosis_id`, ICD-10 `diagnosis_code`). -/
def part1DiagnosisCatalog : List DiagnosisRow :=
  [⟨"DIAG001", "J18.9"⟩, ⟨"DIAG002", "J12.9"⟩, ⟨"DIAG003", "J44.0"⟩,
   ⟨"DIAG004", "J44.1"⟩, ⟨"DIAG005", "J81.0"⟩, ⟨"DIAG006", "J93.0"⟩,
   ⟨"DIAG007", "J98.4"⟩, ⟨"DIAG008", "J20.9"⟩, ⟨"DIAG009", "J45.9"⟩,
   ⟨"DIAG010", "J84.9"⟩, ⟨"DIAG011", "I50.9"⟩, ⟨"DIAG012", "I25.10"⟩,
   ⟨"DIAG013", "I21.9"⟩, ⟨"DIAG014", "I48.91"⟩, ⟨"DIAG015", "I11.0"⟩,
   ⟨"DIAG016", "I26.99"⟩, ⟨"DIAG017", "I10"⟩, ⟨"DIAG018", "A41.9"⟩,
   ⟨"DIAG019", "B99.9"⟩, ⟨"DIAG020", "J22"⟩, ⟨"DIAG021", "S22.9"⟩,
   ⟨"DIAG022", "S32.9"⟩, ⟨"DIAG023", "S42.9"⟩, ⟨"DIAG024", "S72.9"⟩,
   ⟨"DIAG025", "S06.9"⟩, ⟨"DIAG026", "C34.90"⟩, ⟨"DIAG027", "C50.9"⟩,
   ⟨"DIAG028", "D49.2"⟩, ⟨"DIAG029", "R91.8"⟩, ⟨"DIAG030", "R07.9"⟩,
   ⟨"DIAG031", "R05"⟩, ⟨"DIAG032", "R06.02"⟩, ⟨"DIAG033", "J96.90"⟩,
   ⟨"DIAG034", "J47.9"⟩, ⟨"DIAG035", "J43.9"⟩, ⟨"DIAG036", "J85.2"⟩,
   ⟨"DIAG037", "J94.8"⟩, ⟨"DIAG038", "M79.3"⟩, ⟨"DIAG039", "E11.9"⟩,
   ⟨"DIAG040", "E66.9"⟩, ⟨"DIAG041", "N18.9"⟩, ⟨"DIAG042", "K21.9"⟩,
   ⟨"DIAG043", "F41.9"⟩, ⟨"DIAG044", "G47.33"⟩, ⟨"DIAG045", "Z87.891"⟩,
   ⟨"DIAG046", "Z20.828"⟩, ⟨"DIAG047", "U07.1"⟩, ⟨"DIAG048", "J80"⟩,
   ⟨"DIAG049", "T78.2"⟩, ⟨"DIAG050", "J18.1"⟩]

/-! ## Calendar arithmetic for the warehouse

Dates are modelled as day numbers (days since 1970-01-01).  The conversions
implement the standard civil-calendar algorithms used by Python `datetime`
and by PostgreSQL date functions; they are the embedding of the attribute
derivations in `populate_dim_time` (`strftime`, `isocalendar`, `weekday`). -/

/-- Convert a day number to `(year, month, day)` (proleptic Gregorian). -/
def civilFromDays (n : Nat) : Nat × Nat × Nat :=
  let z := n + 719468
  let era := z / 146097
  let doe := z % 146097
  let yoe := (doe - doe / 1460 + doe / 36524 - doe / 146096) / 365
  let y := yoe + era * 400
  let doy := doe - (365 * yoe + yoe / 4 - yoe / 100)
  let mp := (5 * doy + 2) / 153
  let d := doy - (153 * mp + 2) / 5 + 1
  let m := if mp < 10 then mp + 3 else mp - 9
  (if m ≤ 2 then y + 1 else y, m, d)

/-- Convert `(year, month, day)` to a day number (inverse of
`civilFromDays` for dates from 1970 on). -/
def daysFromCivil (y m d : Nat) : Nat :=
  let y1 := if m ≤ 2 then y - 1 else y
  let era := y1 / 400
  let yoe := y1 % 400
  let mp := if 2 < m then m - 3 else m + 9
  let doy := (153 * mp + 2) / 5 + d - 1
  let doe := yoe * 365 + yoe / 4 - yoe / 100 + doy
  era * 146097 + doe - 719468

/-- Python `date.weekday()`: Monday = 0 … Sunday = 6
(1970-01-01 was a Thursday). -/
def pyWeekday (n : Nat) : Nat := (n + 3) % 7

/-- Gregorian leap-year test. -/
def isLeapYear (y : Nat) : Bool := y % 4 = 0 ∧ (y % 100 ≠ 0 ∨ y % 400 = 0)

/-- ISO weekday: Monday = 1 … Sunday = 7. -/
def isoWeekday (n : Nat) : Nat := pyWeekday n + 1

/-- Number of ISO weeks in a year (52 or 53). -/
def isoWeeksInYear (y : Nat) : Nat :=
  let jan1 := isoWeekday (daysFromCivil y 1 1)
  if jan1 = 4 ∨ (isLeapYear y ∧ jan1 = 3) then 53 else 52

/-- Python `date.isocalendar()[1]`: the ISO-8601 week number. -/
def isoWeek (n : Nat) : Nat :=
  let c := civilFromDays n
  let doy := n - daysFromCivil c.1 1 1 + 1
  let w := (doy + 10 - isoWeekday n) / 7
  if w < 1 then isoWeeksInYear (c.1 - 1)
  else if isoWeeksInYear c.1 < w then 1
  else w

/-- Python `strftime('%B')`. -/
def monthName (m : Nat) : String :=
  [("January"), ("February"), ("March"), ("April"), ("May"), ("June"), ("July"),
   ("August"), ("September"), ("October"), ("November"), ("December")].getD (m - 1) ""

/-- Python `strftime('%A')` from the Python weekday (Monday = 0). -/
def dayName (w : Nat) : String :=
  [("Monday"), ("Tuesday"), ("Wednesday"), ("Thursday"), ("Friday"),
   ("Saturday"), ("Sunday")].getD w ""

/-- `int(current_date.strftime('%Y%m%d'))` /
`TO_CHAR(date, 'YYYYMMDD')::INTEGER`. -/
def dateIdOf (n : Nat) : Nat :=
  let c := civilFromDays n
  c.1 * 10000 + c.2.1 * 100 + c.2.2

/-! ## Warehouse data model (`part3_analytics/populate_warehouse.py`) -/

/-- A `dim_time` row (column order as in the `INSERT`). -/
structure DimTimeRow where
  date_id : Nat
  full_date : Nat
  year : Nat
  quarter : Nat
  month : Nat
  month_name : String
  week : Nat
  day_of_month : Nat
  day_of_week : Nat
  day_name : String
  is_weekend : Bool
  is_holiday : Bool
  fiscal_year : Nat
  fiscal_quarter : Nat
deriving Repr, DecidableEq

/-- A `dim_patient` row; `patient_key` is the `SERIAL` surrogate key and
`age` is `NULL`-able (`Option`). -/
structure DimPatientRow where
  patient_key : Nat
  patient_id : Nat
  age : Option Int
  sex : String
  age_group : String
  location : String
deriving Repr, DecidableEq

/-- The non-key columns of a `dim_patient` row, as produced by the `SELECT`
of `populate_dim_patient` before key assignment. -/
structure DimPatientInfo where
  patient_id : Nat
  age : Option Int
  sex : String
  age_group : String
  location : String
deriving Repr, DecidableEq

/-- A `dim_procedure` row. -/
structure DimProcedureRow where
  procedure_key : Nat
  procedure_id : Nat
  procedure_code : String
  modality : String
  projection : String
deriving Repr, DecidableEq

/-- The non-key columns of a `dim_procedure` row. -/
structure DimProcedureInfo where
  procedure_id : Nat
  procedure_code : String
  modality : String
  projection : String
deriving Repr, DecidableEq

/-- A `dim_diagnosis` row. -/
structure DimDiagnosisRow where
  diagnosis_key : Nat
  diagnosis_id : Nat
  diagnosis_code : String
deriving Repr, DecidableEq

/-- The non-key columns of a `dim_diagnosis` row. -/
structure DimDiagnosisInfo where
  diagnosis_id : Nat
  diagnosis_code : String
deriving Repr, DecidableEq

/-- A `fact_encounters` row; `encounter_key` is the `SERIAL` surrogate key
and `encounter_id` the integer derived from the operational natural key. -/
structure FactRow where
  encounter_key : Nat
  encounter_id : Nat
  patient_key : Nat
  date_id : Nat
  facility_id : Nat
  encounter_type : String
  procedure_count : Nat
  diagnosis_count : Nat
  report_count : Nat
deriving Repr, DecidableEq

/-- The non-key columns of a `fact_encounters` row. -/
structure FactInfo where
  encounter_id : Nat
  patient_key : Nat
  date_id : Nat
  facility_id : Nat
  encounter_type : String
  procedure_count : Nat
  diagnosis_count : Nat
  report_count : Nat
deriving Repr, DecidableEq

/-- A `bridge_encounter_procedures` row. -/
structure BridgeProcRow where
  encounter_key : Nat
  procedure_key : Nat
deriving Repr, DecidableEq

/-- A `bridge_encounter_diagnoses` row. -/
structure BridgeDiagRow where
  encounter_key : Nat
  diagnosis_key : Nat
  diagnosis_type : String
deriving Repr, DecidableEq

/-- The warehouse star schema.  `SERIAL` sequences are modelled as explicit
counters; `TRUNCATE` empties the tables but does not reset the sequences. -/
structure Warehouse where
  dimTime : List DimTimeRow
  dimPatient : List DimPatientRow
  dimProcedure : List DimProcedureRow
  dimDiagnosis : List DimDiagnosisRow
  factEncounters : List FactRow
  bridgeProcs : List BridgeProcRow
  bridgeDiags : List BridgeDiagRow
  nextPatientKey : Nat
  nextProcedureKey : Nat
  nextDiagnosisKey : Nat
  nextEncounterKey : Nat
deriving Repr, DecidableEq

/-- `WarehouseETL.clear_warehouse`: truncate all warehouse tables. -/
def clearWarehouse (w : Warehouse) : Warehouse :=
  { w with dimTime := [], dimPatient := [], dimProcedure := [], dimDiagnosis := [],
           factEncounters := [], bridgeProcs := [], bridgeDiags := [] }

/-! ## Warehouse population stages -/

/-- `SELECT MIN(encounter_date), MAX(encounter_date) FROM encounters`
(`NULL` on an empty table). -/
def minMaxDates (op : Store) : Option (Nat × Nat) :=
  match op.encounters.map (·.encounter_date) with
  | [] => none
  | d :: ds => some (ds.foldl min d, ds.foldl max d)

/-- One generated `dim_time` row for day number `d`
(the tuple built in the `while current_date <= max_date` loop). -/
def mkTimeRow (d : Nat) : DimTimeRow :=
  let c := civilFromDays d
  { date_id := dateIdOf d, full_date := d, year := c.1,
    quarter := (c.2.1 - 1) / 3 + 1, month := c.2.1, month_name := monthName c.2.1,
    week := isoWeek d, day_of_month := c.2.2, day_of_week := pyWeekday d + 1,
    day_name := dayName (pyWeekday d), is_weekend := decide (5 ≤ pyWeekday d),
    is_holiday := false, fiscal_year := c.1, fiscal_quarter := (c.2.1 - 1) / 3 + 1 }

/-- The list `time_records` built by `populate_dim_time`: one row per
calendar day from the minimum to the maximum encounter date inclusive
(empty when the store has no encounters). -/
def timeRecords (op : Store) : List DimTimeRow :=
  match minMaxDates op with
  | none => []
  | some mm => (List.range (mm.2 + 1 - mm.1)).map fun i => mkTimeRow (mm.1 + i)

/-- `INSERT INTO dim_time ... ON CONFLICT (date_id) DO NOTHING`. -/
def insertDimTime (w : Warehouse) (row : DimTimeRow) : Warehouse :=
  if w.dimTime.any (fun x => decide (x.date_id = row.date_id)) then w
  else { w with dimTime := w.dimTime ++ [row] }

/-- `WarehouseETL.populate_dim_time`; the second component is the value
recorded in `stats['dim_time_records']` (0, untouched, on the early return
for a store with no encounter dates). -/
def populateDimTime (w : Warehouse) (op : Store) : Warehouse × Nat :=
  match minMaxDates op with
  | none => (w, 0)
  | some _ => ((timeRecords op).foldl insertDimTime w, (timeRecords op).length)

/-- SQL `MIN` aggregate over a list of day numbers (`NULL` on empty). -/
def sqlMinNat (l : List Nat) : Option Nat :=
  match l with
  | [] => none
  | d :: ds => some (ds.foldl min d)

/-- PostgreSQL `EXTRACT(YEAR FROM AGE(d, dob))`: full calendar years from
`dob` to `d` (negative when `d` precedes `dob`). -/
def ageYears (dob d : Nat) : Int :=
  let cd := civilFromDays d
  let cb := civilFromDays dob
  ((cd.1 : Int) - (cb.1 : Int)) -
    (if cd.2.1 < cb.2.1 ∨ (cd.2.1 = cb.2.1 ∧ cd.2.2 < cb.2.2) then 1 else 0)

/-- The `CASE` expression deriving `age_group` in `populate_dim_patient`.
A `NULL` age (patient with no encounters) fails every `WHEN` comparison in
SQL three-valued logic, so the `ELSE 'Elderly'` branch applies. -/
def sqlAgeGroup (age : Option Int) : String :=
  match age with
  | none => "Elderly"
  | some a =>
    if a < 18 then "Pediatric"
    else if a ≤ 35 then "Young Adult"
    else if a ≤ 55 then "Middle Age"
    else if a ≤ 75 then "Senior"
    else "Elderly"

/-- The `SELECT` row of `populate_dim_patient` for one operational patient:
age as of the patient's earliest encounter date (`NULL` if none, via the
`LEFT JOIN`), the derived age group, and the digit-stripped integer id. -/
def dimPatientCandidate (op : Store) (p : Patient) : DimPatientInfo :=
  let minD :=
    sqlMinNat ((op.encounters.filter fun e => decide (e.patient_id = p.patient_id)).map
      (·.encounter_date))
  let age := minD.map fun d => ageYears p.date_of_birth d
  { patient_id := stripToInt p.patient_id, age := age, sex := p.gender,
    age_group := sqlAgeGroup age, location := "Kigali" }

/-- `INSERT INTO dim_patient ... ON CONFLICT (patient_id) DO NOTHING`;
the surrogate-key sequence advances on every attempted row. -/
def insertDimPatient (w : Warehouse) (info : DimPatientInfo) : Warehouse :=
  if w.dimPatient.any (fun x => decide (x.patient_id = info.patient_id)) then
    { w with nextPatientKey := w.nextPatientKey + 1 }
  else
    { w with
      dimPatient := w.dimPatient ++
        [{ patient_key := w.nextPatientKey, patient_id := info.patient_id,
           age := info.age, sex := info.sex, age_group := info.age_group,
           location := info.location }],
      nextPatientKey := w.nextPatientKey + 1 }

/-- `WarehouseETL.populate_dim_patient` (one `SELECT` group per operational
patient row, since `patients.patient_id` is the primary key). -/
def populateDimPatient (w : Warehouse) (op : Store) : Warehouse :=
  (op.patients.map (dimPatientCandidate op)).foldl insertDimPatient w

/-- `INSERT INTO dim_procedure ... ON CONFLICT (procedure_id) DO NOTHING`. -/
def insertDimProcedure (w : Warehouse) (info : DimProcedureInfo) : Warehouse :=
  if w.dimProcedure.any (fun x => decide (x.procedure_id = info.procedure_id)) then
    { w with nextProcedureKey := w.nextProcedureKey + 1 }
  else
    { w with
      dimProcedure := w.dimProcedure ++
        [{ procedure_key := w.nextProcedureKey, procedure_id := info.procedure_id,
           procedure_code := info.procedure_code, modality := info.modality,
           projection := info.projection }],
      nextProcedureKey := w.nextProcedureKey + 1 }

/-- `WarehouseETL.populate_dim_procedure`: `SELECT DISTINCT` over the
operational procedures (the `procedure_id IS NOT NULL` filter always holds
for a `SERIAL` column). -/
def populateDimProcedure (w : Warehouse) (op : Store) : Warehouse :=
  (dedupFirst (op.procedures.map fun p =>
    ({ procedure_id := p.procedure_id, procedure_code := p.procedure_code,
       modality := p.modality, projection := p.view_position } : DimProcedureInfo))).foldl
    insertDimProcedure w

/-- `INSERT INTO dim_diagnosis ... ON CONFLICT (diagnosis_id) DO NOTHING`. -/
def insertDimDiagnosis (w : Warehouse) (info : DimDiagnosisInfo) : Warehouse :=
  if w.dimDiagnosis.any (fun x => decide (x.diagnosis_id = info.diagnosis_id)) then
    { w with nextDiagnosisKey := w.nextDiagnosisKey + 1 }
  else
    { w with
      dimDiagnosis := w.dimDiagnosis ++
        [{ diagnosis_key := w.nextDiagnosisKey, diagnosis_id := info.diagnosis_id,
           diagnosis_code := info.diagnosis_code }],
      nextDiagnosisKey := w.nextDiagnosisKey + 1 }

/-- `WarehouseETL.populate_dim_diagnosis`: one row per catalog entry with
the digit-stripped integer id. -/
def populateDimDiagnosis (w : Warehouse) (op : Store) : Warehouse :=
  (op.diagnoses.map fun d =>
    ({ diagnosis_id := stripToInt d.diagnosis_id, diagnosis_code := d.diagnosis_code } :
      DimDiagnosisInfo)).foldl insertDimDiagnosis w

/-- The `SELECT` row of `populate_fact_encounters` for one joined pair of
an operational encounter and a matching `dim_patient` row; the three counts
are the independent `COUNT(DISTINCT ...)` aggregates over the left-joined
procedures, diagnosis assignments, and reports of the encounter. -/
def factCandidate (op : Store) (e : Encounter) (dp : DimPatientRow) : FactInfo :=
  { encounter_id := stripToInt e.encounter_id,
    patient_key := dp.patient_key,
    date_id := dateIdOf e.encounter_date,
    facility_id := stripToInt e.facility_id,
    encounter_type := e.encounter_type,
    procedure_count :=
      (dedupFirst ((op.procedures.filter fun p =>
        decide (p.encounter_id = e.encounter_id)).map (·.procedure_id))).length,
    diagnosis_count :=
      (dedupFirst ((op.encounterDiagnoses.filter fun x =>
        decide (x.encounter_id = e.encounter_id)).map (·.diagnosis_id))).length,
    report_count :=
      (dedupFirst ((op.reports.filter fun r =>
        decide (r.encounter_id = e.encounter_id)).map (·.report_id))).length }

/-- The grouped `SELECT` output of `populate_fact_encounters`: one candidate
row per (encounter, matching `dim_patient` row) pair, `GROUP BY` collapsing
exact duplicates. -/
def factCandidates (w : Warehouse) (op : Store) : List FactInfo :=
  dedupFirst ((op.encounters.map fun e =>
    (w.dimPatient.filter fun dp =>
      decide (dp.patient_id = stripToInt e.patient_id)).map fun dp =>
        factCandidate op e dp).flatten)

/-- `INSERT INTO fact_encounters ... ON CONFLICT (encounter_id) DO NOTHING`. -/
def insertFact (w : Warehouse) (info : FactInfo) : Warehouse :=
  if w.factEncounters.any (fun x => decide (x.encounter_id = info.encounter_id)) then
    { w with nextEncounterKey := w.nextEncounterKey + 1 }
  else
    { w with
      factEncounters := w.factEncounters ++
        [{ encounter_key := w.nextEncounterKey, encounter_id := info.encounter_id,
           patient_key := info.patient_key, date_id := info.date_id,
           facility_id := info.facility_id, encounter_type := info.encounter_type,
           procedure_count := info.procedure_count,
           diagnosis_count := info.diagnosis_count,
           report_count := info.report_count }],
      nextEncounterKey := w.nextEncounterKey + 1 }

/-- `WarehouseETL.populate_fact_encounters`: the inner join against
`dim_patient` is required, so an encounter whose patient has no dimension
row contributes no candidate. -/
def populateFactEncounters (w : Warehouse) (op : Store) : Warehouse :=
  (factCandidates w op).foldl insertFact w

/-- `INSERT INTO bridge_encounter_procedures ... ON CONFLICT
(encounter_key, procedure_key) DO NOTHING`. -/
def insertBridgeProc (w : Warehouse) (row : BridgeProcRow) : Warehouse :=
  if w.bridgeProcs.any (fun x =>
      decide (x.encounter_key = row.encounter_key) &&
      decide (x.procedure_key = row.procedure_key)) then w
  else { w with bridgeProcs := w.bridgeProcs ++ [row] }

/-- The `SELECT DISTINCT` output of `populate_bridge_procedures`: fact rows
joined back to encounters (on the digit-stripped id), to their procedures,
and to `dim_procedure` on the operational procedure id. -/
def bridgeProcCandidates (w : Warehouse) (op : Store) : List BridgeProcRow :=
  dedupFirst ((w.factEncounters.map fun f =>
    ((op.encounters.filter fun e =>
      decide (stripToInt e.encounter_id = f.encounter_id)).map fun e =>
      ((op.procedures.filter fun p => decide (p.encounter_id = e.encounter_id)).map fun p =>
        (w.dimProcedure.filter fun dp => decide (dp.procedure_id = p.procedure_id)).map
          fun dp => ({ encounter_key := f.encounter_key,
                       procedure_key := dp.procedure_key } : BridgeProcRow)).flatten).flatten).flatten)

/-- `WarehouseETL.populate_bridge_procedures`. -/
def populateBridgeProcs (w : Warehouse) (op : Store) : Warehouse :=
  (bridgeProcCandidates w op).foldl insertBridgeProc w

/-- `INSERT INTO bridge_encounter_diagnoses ... ON CONFLICT
(encounter_key, diagnosis_key) DO NOTHING`. -/
def insertBridgeDiag (w : Warehouse) (row : BridgeDiagRow) : Warehouse :=
  if w.bridgeDiags.any (fun x =>
      decide (x.encounter_key = row.encounter_key) &&
      decide (x.diagnosis_key = row.diagnosis_key)) then w
  else { w with bridgeDiags := w.bridgeDiags ++ [row] }

/-- The `SELECT DISTINCT` output of `populate_bridge_diagnoses`, tagging each
row `Primary` or `Secondary` from the operational `is_primary` flag. -/
def bridgeDiagCandidates (w : Warehouse) (op : Store) : List BridgeDiagRow :=
  dedupFirst ((w.factEncounters.map fun f =>
    ((op.encounters.filter fun e =>
      decide (stripToInt e.encounter_id = f.encounter_id)).map fun e =>
      ((op.encounterDiagnoses.filter fun x =>
        decide (x.encounter_id = e.encounter_id)).map fun ed =>
        (w.dimDiagnosis.filter fun dd =>
          decide (dd.diagnosis_id = stripToInt ed.diagnosis_id)).map
          fun dd => ({ encounter_key := f.encounter_key,
                       diagnosis_key := dd.diagnosis_key,
                       diagnosis_type :=
                         if ed.is_primary then "Primary" else "Secondary" } :
                       BridgeDiagRow)).flatten).flatten).flatten)

/-- `WarehouseETL.populate_bridge_diagnoses`. -/
def populateBridgeDiags (w : Warehouse) (op : Store) : Warehouse :=
  (bridgeDiagCandidates w op).foldl insertBridgeDiag w

/-- `WarehouseETL.run`: truncate the warehouse, then populate the time,
patient, procedure, and diagnosis dimensions, the fact table, and the two
bridge tables, in that order. -/
def runWarehouse (w0 : Warehouse) (op : Store) : Warehouse :=
  let w1 := clearWarehouse w0
  let w2 := (populateDimTime w1 op).1
  let w3 := populateDimPatient w2 op
  let w4 := populateDimProcedure w3 op
  let w5 := populateDimDiagnosis w4 op
  let w6 := populateFactEncounters w5 op
  let w7 := populateBridgeProcs w6 op
  populateBridgeDiags w7 op

/-! ## Warehouse QA engine (`run_warehouse_qa.py`) -/

/-- One fetched row, as the list of (column name, rendered value) pairs
that `dict(zip(cols, r))` produces. -/
def QARow := List (String × String)
deriving instance Repr, DecidableEq for QARow

/-- The outcome of executing one QA query: either the fetched rows or the
message of the raised exception.  The database itself is not modelled at
this layer; each predicate's outcome is an oracle input. -/
def QAOutcome := Except String (List QARow)

/-- The captured `output` field of a QA result entry. -/
inductive QAOutput where
  | msg (s : String)
  | rows (rs : List QARow)
deriving Repr, DecidableEq

/-- One entry of `self.results`. -/
structure QAEntry where
  id : Nat
  description : String
  status : String
  output : QAOutput
deriving Repr, DecidableEq

/-- `QA_DESCRIPTIONS` from `run_warehouse_qa.py`. -/
def qaDescriptions : List (Nat × String) :=
  [(1, "Check for duplicate patient IDs"),
   (2, "Check for missing patient demographics"),
   (3, "Check for orphan encounters"),
   (5, "Check for duplicate encounter IDs"),
   (6, "Check for missing encounter dates"),
   (7, "Check for orphan procedures in bridge"),
   (9, "Check for duplicate procedure codes")]

/-- `QA_DESCRIPTIONS.get(idx, f"Query {idx}")`. -/
def qaDescription (idx : Nat) : String :=
  match (qaDescriptions.filter fun kv => decide (kv.1 = idx)).getLast? with
  | some kv => kv.2
  | none => String.mk ("Query ".toList ++ decimalDigits idx)

/-- The ids of the inline QA queries in `_load_queries` (dict iteration
order = insertion order). -/
def qaQueryIds : List Nat := [1, 2, 3, 5, 6, 7, 9]

/-- The per-predicate body of `WarehouseQA.run_all`: zero rows → `PASS`;
some rows → `FAIL` with all fetched rows captured; exception → `ERROR` with
the message captured. -/
def qaStep (idx : Nat) (outcome : QAOutcome) : QAEntry :=
  match outcome with
  | .ok [] => ⟨idx, qaDescription idx, "PASS", .msg "_No rows returned — OK_"⟩
  | .ok rows => ⟨idx, qaDescription idx, "FAIL", .rows rows⟩
  | .error e => ⟨idx, qaDescription idx, "ERROR", .msg e⟩

/-- The transaction-aware loop of `WarehouseQA.run_all`: if the connection
is in the aborted state left by an earlier failed statement, executing the
next query raises instead of returning rows; on any exception the code
calls `conn.rollback()`, clearing the aborted state before continuing. -/
def qaRunAux (db : Nat → QAOutcome) : List Nat → Bool → List QAEntry
  | [], _ => []
  | idx :: rest, aborted =>
    let outcome : QAOutcome :=
      if aborted then .error "current transaction is aborted" else db idx
    match outcome with
    | .ok rs => qaStep idx (.ok rs) :: qaRunAux db rest aborted
    | .error e => qaStep idx (.error e) :: qaRunAux db rest false

/-- `WarehouseQA.run_all` over the fixed query battery, with the outcome of
each query execution supplied by the oracle `db`. -/
def qaRunAll (db : Nat → QAOutcome) : List QAEntry := qaRunAux db qaQueryIds false

/-! ## Auxiliary definitions used by the theorems -/

/-- Some procedure row in the operational store carries the given code. -/
def hasCode (s : Store) (c : String) : Prop :=
  ∃ p ∈ s.procedures, p.procedure_code = c

/-- The correlation tokens of the stored patients are pairwise distinct
(spec §3: "correlation token unique per external id"). -/
def emailUnique (s : Store) : Prop :=
  s.patients.Pairwise fun p q => p.contact_email ≠ q.contact_email

/-- A patient id of the controlled generation scheme: the literal prefix
`PAT` followed by exactly seven decimal digits. -/
def patScheme (id : String) : Prop :=
  ∃ ds, id = String.mk ("PAT".toList ++ ds) ∧ ds.length = 7 ∧ ∀ c ∈ ds, c.isDigit = true

/-- The numeric suffix read back from a stored patient id by
`_bulk_create_patients`: `int(m.replace("PAT", ""))`. -/
def patVal (s : String) : Nat := pyInt (String.mk (replaceAll "PAT".toList [] s.toList))

/-- A degenerate oracle for concrete evaluations. -/
def zeroOracle : Oracle := ⟨fun _ => 0, fun _ => 0, fun _ => 0⟩

/-- A fresh warehouse (empty tables, sequences at 1). -/
def freshWarehouse : Warehouse := ⟨[], [], [], [], [], [], [], 1, 1, 1, 1⟩

/-- A fresh operational store holding only the part-1 reference data: one
hospital facility and the 50-entry diagnosis catalog. -/
def freshStore : Store :=
  { patients := [], facilities := [⟨"FAC000001", "Hospital"⟩],
    diagnoses := part1DiagnosisCatalog, encounters := [], procedures := [],
    encounterDiagnoses := [], reports := [], nextProcedureId := 1, nextReportId := 1 }

/-- Concrete input record whose first finding label is `Atelectasis`
(mapped to ICD-10 `J98.11`, which the part-1 catalog does not contain). -/
def recAtelectasis : InputRecord :=
  ⟨"00000001_000.png", "1", 45, "M", "Atelectasis|Effusion", "PA",
   "Radiology Report", "Final"⟩

/-- Concrete input record whose first finding label is `Effusion`
(mapped to ICD-10 `J94.8`, present in the catalog as `DIAG037`). -/
def recEffusion : InputRecord :=
  ⟨"00000002_000.png", "2", 30, "F", "Effusion|Cardiomegaly", "PA",
   "Radiology Report", "Final"⟩

/-- Two occurrences of external patient id `7` with different recorded ages
(a real situation in the NIH data: follow-up studies years apart). -/
def recDupA : InputRecord :=
  ⟨"00000007_000.png", "7", 45, "M", "No Finding", "PA", "Radiology Report", "Final"⟩

/-- Second study of external patient `7`, one year older. -/
def recDupB : InputRecord :=
  ⟨"00000007_001.png", "7", 46, "M", "No Finding", "PA", "Radiology Report", "Final"⟩

/-- A small operational store for warehouse witnesses: two patients, the
second without any encounter, two encounters for the first, one procedure,
one primary diagnosis assignment. -/
def sampleOp : Store :=
  { patients := [⟨"PAT0000001", 1000, "M", "a@b"⟩, ⟨"PAT0000002", 2000, "F", "c@d"⟩],
    facilities := [⟨"FAC000001", "Hospital"⟩],
    diagnoses := [⟨"DIAG037", "J94.8"⟩],
    encounters := [⟨"ENC00000001", "PAT0000001", "FAC000001", 19000, 0, "Inpatient"⟩,
                   ⟨"ENC00000002", "PAT0000001", "FAC000001", 19002, 0, "Outpatient"⟩],
    procedures := [⟨1, "ENC00000001", "NIH_X", "X-Ray", "PA"⟩],
    encounterDiagnoses := [⟨"ENC00000001", "DIAG037", 1, true⟩],
    reports := [], nextProcedureId := 2, nextReportId := 1 }

/-- A sample database oracle for the QA witness: predicate 3 raises,
predicate 5 returns one offending row, all others return zero rows. -/
def qaDbSample : Nat → QAOutcome := fun i =>
  if i = 3 then .error "boom"
  else if i = 5 then .ok [[("encounter_id", "17")]]
  else .ok []

/-- A store whose patients use the `PAT` + 7-digit scheme, for the
id-synthesis witness. -/
def c9Store : Store :=
  { patients := [⟨"PAT0000005", 1000, "M", "a@b"⟩, ⟨"PAT0000002", 2000, "F", "c@d"⟩],
    facilities := [⟨"FAC000001", "Hospital"⟩], diagnoses := [], encounters := [],
    procedures := [], encounterDiagnoses := [], reports := [],
    nextProcedureId := 1, nextReportId := 1 }

/-! ## General lemmas -/

theorem mem_dedupFirstAux [DecidableEq α] {x : α} :
    ∀ {l seen : List α}, x ∈ dedupFirstAux l seen ↔ x ∈ l ∧ x ∉ seen := by
  intro l
  induction l with
  | nil => intro seen; simp [dedupFirstAux]
  | cons a t ih =>
    intro seen
    by_cases ha : a ∈ seen
    · rw [dedupFirstAux, if_pos ha, ih]
      constructor
      · rintro ⟨hm, hs⟩
        exact ⟨List.mem_cons_of_mem _ hm, hs⟩
      · rintro ⟨hm, hs⟩
        rcases List.mem_cons.mp hm with h | h
        · exact absurd (h ▸ ha) hs
        · exact ⟨h, hs⟩
    · rw [dedupFirstAux, if_neg ha]
      simp only [List.mem_cons, ih, List.mem_cons, not_or]
      constructor
      · rintro (rfl | ⟨hm, hs⟩)
        · exact ⟨Or.inl rfl, ha⟩
        · exact ⟨Or.inr hm, hs.2⟩
      · rintro ⟨rfl | hm, hs⟩
        · exact Or.inl rfl
        · by_cases hxa : x = a
          · exact Or.inl hxa
          · exact Or.inr ⟨hm, hxa, hs⟩

theorem mem_dedupFirst [DecidableEq α] {x : α} {l : List α} :
    x ∈ dedupFirst l ↔ x ∈ l := by
  simp [dedupFirst, mem_dedupFirstAux]

theorem foldl_preserve {α : Type u} {β : Type v} (f : α → β → α) (P : α → Prop)
    (h : ∀ a b, P a → P (f a b)) :
    ∀ (l : List β) (a : α), P a → P (l.foldl f a)
  | [], _, ha => ha
  | b :: t, a, ha => foldl_preserve f P h t (f a b) (h a b ha)

theorem foldl_establish {α : Type u} {β : Type v} (f : α → β → α) (P : α → Prop)
    (hpres : ∀ a b, P a → P (f a b)) (g : β → Prop)
    (hest : ∀ a b, g b → P (f a b)) :
    ∀ (l : List β) (a : α) (x : β), x ∈ l → g x → P (l.foldl f a)
  | b :: t, a, x, hx, hgx => by
    rcases List.mem_cons.mp hx with rfl | hxt
    · exact foldl_preserve f P hpres t (f a x) (hest a x hgx)
    · exact foldl_establish f P hpres g hest t (f a b) x hxt hgx

/-- A string built as `String.mk` over an explicit character list has that
list as its `toList`. -/
theorem toList_mk (l : List Char) : (String.mk l).toList = l := rfl

/-! ## Lemmas about the incremental filter and the load path -/

/-- The records that survive the incremental filter against store `s`. -/
theorem transform_eq (s : Store) (df : List InputRecord) (o : Oracle) :
    transform s true df o =
      (let keep := df.filter fun r =>
        !decide (nihProcedureCode r.imageIndex ∈ existingImageIndices s)
      if keep = [] then ⟨s, none, df.length - keep.length, 0⟩
      else ⟨s, some (mkTRecords o keep), df.length - keep.length, keep.length⟩) := by
  unfold transform
  by_cases hE : existingImageIndices s = []
  · have hkeep : (df.filter fun r =>
        !decide (nihProcedureCode r.imageIndex ∈ existingImageIndices s)) = df := by
      apply List.filter_eq_self.mpr
      intro a _
      simp [hE]
    simp only [hE, hkeep]
    simp only [ne_eq, not_true_eq_false, and_false, if_false, List.length_eq_zero,
      List.not_mem_nil, decide_False, Bool.not_false, List.filter_cons_of_pos,
      List.filter_nil]
    have hkeep2 : (df.filter fun _ => (true : Bool)) = df :=
      List.filter_eq_self.mpr fun a _ => rfl
    simp only [hkeep2]
    rcases eq_or_ne df [] with rfl | hdf
    · simp
    · simp [hdf]
  · simp only [ne_eq, hE, not_false_eq_true, and_true, if_true, and_self,
      List.length_eq_zero]

/-- Membership in the distinct NIH-prefixed code list means some procedure
row carries the code. -/
theorem hasCode_of_mem_existing {s : Store} {c : String}
    (h : c ∈ existingImageIndices s) : hasCode s c := by
  unfold existingImageIndices at h
  rw [mem_dedupFirst] at h
  have h2 := List.mem_filter.mp h
  rcases List.mem_map.mp h2.1 with ⟨p, hp, rfl⟩
  exact ⟨p, hp, rfl⟩

/-- A stored procedure code matching `LIKE 'NIH_%'` is in the distinct
existing-code list. -/
theorem mem_existing_of_hasCode {s : Store} {c : String}
    (h : hasCode s c) (hlk : likeNIH c = true) : c ∈ existingImageIndices s := by
  rcases h with ⟨p, hp, rfl⟩
  unfold existingImageIndices
  rw [mem_dedupFirst]
  exact List.mem_filter.mpr ⟨List.mem_map_of_mem _ hp, hlk⟩

/-- Every derived NIH procedure code matches `LIKE 'NIH_%'`. -/
theorem likeNIH_nihProcedureCode (ii : String) :
    likeNIH (nihProcedureCode ii) = true := by
  unfold likeNIH nihProcedureCode
  rw [toList_mk]
  have hpre : "NIH_".toList = 'N' :: 'I' :: 'H' :: '_' :: [] := rfl
  rw [hpre]
  simp only [Bool.and_eq_true]
  constructor
  · rfl
  · simp only [toList_mk, decide_eq_true_iff, List.length_cons, List.length_append]
    omega

/-- `mkTRecords` keeps the underlying records, in order. -/
theorem mkTRecords_map_src (o : Oracle) (df : List InputRecord) :
    (mkTRecords o df).map (·.src) = df := by
  unfold mkTRecords
  rw [List.map_map]
  have : ((fun t : TRecord => t.src) ∘ fun p : Nat × InputRecord =>
      mkTRecord p.2 (o.encDatetime p.1)) = Prod.snd := by
    funext p
    rfl
  rw [this, List.enum_map_snd]

/-- Every transformed record carries the derived natural key of its source
row as its `nih_procedure_code` column. -/
theorem mkTRecords_procCode {o : Oracle} {df : List InputRecord} {t : TRecord}
    (ht : t ∈ mkTRecords o df) : t.procCode = nihProcedureCode t.src.imageIndex := by
  unfold mkTRecords at ht
  rcases List.mem_map.mp ht with ⟨p, _, rfl⟩
  rfl

/-- A record of the input frame appears as the source of some transformed
record. -/
theorem mem_mkTRecords {o : Oracle} {df : List InputRecord} {r : InputRecord}
    (hr : r ∈ df) : ∃ t ∈ mkTRecords o df, t.src = r := by
  have : r ∈ (mkTRecords o df).map (·.src) := by
    rw [mkTRecords_map_src]; exact hr
  exact List.mem_map.mp this

theorem insertEncounter_procedures (s : Store) (e : Encounter) :
    (insertEncounter s e).procedures = s.procedures := by
  unfold insertEncounter; split <;> rfl

theorem insertEncDiag_procedures (s : Store) (row : EncounterDiagnosis) :
    (insertEncDiag s row).procedures = s.procedures := by
  unfold insertEncDiag; split <;> rfl

theorem insertReport_procedures (s : Store) (a b c : String) :
    (insertReport s a b c).procedures = s.procedures := rfl

theorem bulk_procedures (s : Store) (now : Nat) (batch : List TRecord) :
    (bulkCreatePatients s now batch).store.procedures = s.procedures := by
  unfold bulkCreatePatients
  dsimp only
  split <;> rfl

/-- `hasCode` depends only on the procedures table. -/
theorem hasCode_of_procedures_eq {s t : Store} {c : String}
    (he : t.procedures = s.procedures) (h : hasCode s c) : hasCode t c := by
  rcases h with ⟨p, hp, hc⟩
  exact ⟨p, he ▸ hp, hc⟩

theorem insertProcedure_mem {s : Store} {p : ProcedureRow}
    (hp : p ∈ s.procedures) (a b c d : String) :
    p ∈ (insertProcedure s a b c d).procedures := by
  unfold insertProcedure
  dsimp only
  split
  · exact hp
  · exact List.mem_append_left _ hp

theorem insertProcedure_hasCode (s : Store) (a code c d : String) :
    hasCode (insertProcedure s a code c d) code := by
  unfold insertProcedure hasCode
  dsimp only
  split
  · rename_i h
    rcases List.any_eq_true.mp h with ⟨p, hp, hcond⟩
    rw [Bool.and_eq_true, decide_eq_true_iff, decide_eq_true_iff] at hcond
    exact ⟨p, hp, hcond.2⟩
  · exact ⟨_, List.mem_append_right _ (List.mem_singleton.mpr rfl), rfl⟩

theorem insertProcedure_hasCode_mono {s : Store} {c : String}
    (h : hasCode s c) (a b m v : String) : hasCode (insertProcedure s a b m v) c := by
  rcases h with ⟨p, hp, hc⟩
  exact ⟨p, insertProcedure_mem hp a b m v, hc⟩

/-- Loading a batch preserves every already-present procedure code. -/
theorem loadBatch_hasCode_mono {cache : List (String × String)} {facIds : List String}
    {now : Nat} {o : Oracle} {acc : Store × Stats} {batch : List TRecord} {c : String}
    (h : hasCode acc.1 c) : hasCode (loadBatch cache facIds now o acc batch).1 c := by
  unfold loadBatch
  dsimp only
  refine foldl_preserve _ (fun st => hasCode st c)
    (fun a b hb => hasCode_of_procedures_eq (insertReport_procedures ..) hb) _ _ ?_
  refine foldl_preserve _ (fun st => hasCode st c)
    (fun a b hb => hasCode_of_procedures_eq (insertEncDiag_procedures ..) hb) _ _ ?_
  refine foldl_preserve _ (fun st => hasCode st c)
    (fun a b hb => insertProcedure_hasCode_mono hb ..) _ _ ?_
  refine foldl_preserve _ (fun st => hasCode st c)
    (fun a b hb => hasCode_of_procedures_eq (insertEncounter_procedures ..) hb) _ _ ?_
  exact hasCode_of_procedures_eq (bulk_procedures ..) h

/-- Loading a batch establishes the derived code of every record in it. -/
theorem loadBatch_hasCode_self {cache : List (String × String)} {facIds : List String}
    {now : Nat} {o : Oracle} {acc : Store × Stats} {batch : List TRecord} {t : TRecord}
    (ht : t ∈ batch) : hasCode (loadBatch cache facIds now o acc batch).1 t.procCode := by
  unfold loadBatch
  dsimp only
  refine foldl_preserve _ (fun st => hasCode st t.procCode)
    (fun a b hb => hasCode_of_procedures_eq (insertReport_procedures ..) hb) _ _ ?_
  refine foldl_preserve _ (fun st => hasCode st t.procCode)
    (fun a b hb => hasCode_of_procedures_eq (insertEncDiag_procedures ..) hb) _ _ ?_
  exact foldl_establish _ (fun st => hasCode st t.procCode)
    (fun a b hb => insertProcedure_hasCode_mono hb ..)
    (fun r => r.procCode = t.procCode)
    (fun a b hg => hg ▸ insertProcedure_hasCode ..) _ _ t ht rfl

theorem load_hasCode_mono {cache : List (String × String)} {facIds : List String}
    {now : Nat} {o : Oracle} {s : Store} {st : Stats} {df : List TRecord} {c : String}
    (h : hasCode s c) : hasCode (load cache facIds now o s st df).1 c := by
  unfold load
  exact foldl_preserve _ (fun acc : Store × Stats => hasCode acc.1 c)
    (fun a i ha => loadBatch_hasCode_mono ha) _ _ h

/-- Every transformed record's derived code is present after the full
batched load. -/
theorem load_hasCode_self {cache : List (String × String)} {facIds : List String}
    {now : Nat} {o : Oracle} {s : Store} {st : Stats} {df : List TRecord} {t : TRecord}
    (ht : t ∈ df) : hasCode (load cache facIds now o s st df).1 t.procCode := by
  rcases List.mem_iff_getElem.mp ht with ⟨j, hj, hjt⟩
  obtain ⟨q, k, hqk, hkB⟩ : ∃ q k, j = q * 2000 + k ∧ k < 2000 :=
    ⟨j / 2000, j % 2000, by omega, by omega⟩
  subst hqk
  have h2 : q ≤ df.length / 2000 :=
    (Nat.le_div_iff_mul_le (by norm_num)).mpr (by omega)
  have hsplit : df.length / BATCH_SIZE + 1 =
      (q + 1) + (df.length / BATCH_SIZE + 1 - (q + 1)) := by
    simp only [BATCH_SIZE]
    omega
  unfold load
  rw [hsplit, List.range_add, List.foldl_append, List.range_succ, List.foldl_append]
  refine foldl_preserve _ (fun acc : Store × Stats => hasCode acc.1 t.procCode)
    (fun a n ha => loadBatch_hasCode_mono ha) _ _ ?_
  simp only [List.foldl_cons, List.foldl_nil]
  apply loadBatch_hasCode_self
  have hdl : q * BATCH_SIZE + k < df.length := by
    simp only [BATCH_SIZE]
    omega
  have hlen : k < ((df.drop (q * BATCH_SIZE)).take BATCH_SIZE).length := by
    rw [List.length_take, List.length_drop]
    simp only [BATCH_SIZE]
    omega
  have heq : ((df.drop (q * BATCH_SIZE)).take BATCH_SIZE)[k] = df[q * BATCH_SIZE + k] := by
    rw [List.getElem_take, List.getElem_drop]
  rw [← hjt]
  have hm := List.getElem_mem hlen
  rw [heq] at hm
  exact hm

/-- After a full pipeline run, every input record's derived natural key is
present as a stored procedure code. -/
theorem run_hasCode {s0 : Store} {now : Nat} {o : Oracle} {df : List InputRecord}
    {r : InputRecord} (hr : r ∈ df) :
    hasCode (run s0 now o df).1 (nihProcedureCode r.imageIndex) := by
  unfold run
  rw [transform_eq]
  dsimp only
  by_cases hk : (df.filter fun x =>
      !decide (nihProcedureCode x.imageIndex ∈ existingImageIndices s0)) = []
  · rw [if_pos hk]
    dsimp only
    have hmemE : nihProcedureCode r.imageIndex ∈ existingImageIndices s0 := by
      have := List.filter_eq_nil_iff.mp hk r hr
      simpa using this
    exact hasCode_of_mem_existing hmemE
  · rw [if_neg hk]
    dsimp only
    by_cases hmemE : nihProcedureCode r.imageIndex ∈ existingImageIndices s0
    · exact load_hasCode_mono (hasCode_of_mem_existing hmemE)
    · have hrk : r ∈ df.filter fun x =>
          !decide (nihProcedureCode x.imageIndex ∈ existingImageIndices s0) :=
        List.mem_filter.mpr ⟨hr, by simpa using hmemE⟩
      rcases mem_mkTRecords (o := o) hrk with ⟨t, htm, hts⟩
      have hcode := mkTRecords_procCode htm
      rw [hts] at hcode
      exact hcode ▸ load_hasCode_self htm

/-! ## Claim C6 -/

/-- C6: the Incremental Extraction Filter is a pure set-difference.  For
every candidate record set and every operational store, `transform` with the
filter active outputs exactly the candidates whose derived key
`'NIH_' + image index (without '.png')` is not among the distinct stored
`NIH_`-prefixed procedure codes, sets the skipped count to input size minus
output size, performs no database writes (the store is returned unchanged),
and when the existing-key set is empty all candidates pass through with a
skipped count of zero. -/
theorem C6_transform_is_set_difference (s : Store) (df : List InputRecord) (o : Oracle) :
    ((transform s true df o).result.getD []).map (·.src) =
      (df.filter fun r =>
        !decide (nihProcedureCode r.imageIndex ∈ existingImageIndices s)) ∧
    (transform s true df o).skipped =
      df.length - (df.filter fun r =>
        !decide (nihProcedureCode r.imageIndex ∈ existingImageIndices s)).length ∧
    (transform s true df o).store = s ∧
    (existingImageIndices s = [] →
      (df.filter fun r =>
        !decide (nihProcedureCode r.imageIndex ∈ existingImageIndices s)) = df ∧
      (transform s true df o).skipped = 0) := by
  have hEkeep : existingImageIndices s = [] →
      (df.filter fun r =>
        !decide (nihProcedureCode r.imageIndex ∈ existingImageIndices s)) = df := by
    intro hE
    apply List.filter_eq_self.mpr
    intro a _
    simp [hE]
  rw [transform_eq]
  dsimp only
  by_cases hk : (df.filter fun r =>
      !decide (nihProcedureCode r.imageIndex ∈ existingImageIndices s)) = []
  · rw [if_pos hk]
    refine ⟨by simp [hk], rfl, rfl, fun hE => ⟨hEkeep hE, ?_⟩⟩
    have hdf : df = [] := by rw [← hEkeep hE]; exact hk
    simp [hdf]
  · rw [if_neg hk]
    refine ⟨by simp [mkTRecords_map_src], rfl, rfl, fun hE => ⟨hEkeep hE, ?_⟩⟩
    simp [hEkeep hE]

/-- Witness for C6 at a concrete fresh store and a singleton candidate set:
the existing-key set is empty, the record passes through, zero skipped. -/
theorem C6_transform_is_set_difference_witness :
    ((transform freshStore true [recAtelectasis] zeroOracle).result.getD []).map (·.src) =
      [recAtelectasis] ∧
    (transform freshStore true [recAtelectasis] zeroOracle).skipped = 0 := by
  have h := C6_transform_is_set_difference freshStore [recAtelectasis] zeroOracle
  have hE : existingImageIndices freshStore = [] := rfl
  refine ⟨?_, (h.2.2.2 hE).2⟩
  rw [h.1, (h.2.2.2 hE).1]

/-! ## Claim C1 -/

/-- C1: idempotency of the load.  For every operational store, input record
set, and pseudo-randomness, running the Batch Load Engine a second time on
the same input with the Incremental Extraction Filter active
(`incremental=True`) leaves every operational table unchanged (the second
run's store equals the first run's store, so zero new rows are inserted
anywhere), and the second run reports `stats['records_skipped']` equal to
the full input size. -/
theorem C1_second_run_inserts_nothing (s0 : Store) (now1 now2 : Nat) (o1 o2 : Oracle)
    (df : List InputRecord) :
    (run (run s0 now1 o1 df).1 now2 o2 df).1 = (run s0 now1 o1 df).1 ∧
    (run (run s0 now1 o1 df).1 now2 o2 df).2.records_skipped = df.length := by
  set s1 := (run s0 now1 o1 df).1 with hs1
  have hall : ∀ x ∈ df, nihProcedureCode x.imageIndex ∈ existingImageIndices s1 :=
    fun x hx => mem_existing_of_hasCode (run_hasCode hx) (likeNIH_nihProcedureCode _)
  have hfilter : (df.filter fun x =>
      !decide (nihProcedureCode x.imageIndex ∈ existingImageIndices s1)) = [] :=
    List.filter_eq_nil_iff.mpr fun a ha => by simp [hall a ha]
  have htr : transform s1 true df o2 = ⟨s1, none, df.length, 0⟩ := by
    rw [transform_eq]
    simp [hfilter]
  constructor
  · show (run s1 now2 o2 df).1 = s1
    unfold run
    rw [htr]
  · show (run s1 now2 o2 df).2.records_skipped = df.length
    unfold run
    rw [htr]

/-! ## Claim C8 -/

/-- The stateful QA loop degenerates to an independent evaluation of each
predicate: the rollback performed on every error clears the aborted
transaction state before the next predicate executes. -/
theorem qaRunAux_false (db : Nat → QAOutcome) :
    ∀ l : List Nat, qaRunAux db l false = l.map fun i => qaStep i (db i)
  | [] => rfl
  | idx :: rest => by
    unfold qaRunAux
    dsimp only
    cases hdb : db idx with
    | ok rs =>
      cases rs <;> simp [qaStep, hdb, qaRunAux_false db rest]
    | error e =>
      simp [qaStep, hdb, qaRunAux_false db rest]

/-- C8: QA per-predicate semantics.  For every database behaviour, the QA
engine produces exactly one result entry per predicate of the fixed battery
(id, description, status, output), in order, with the predicate outcomes
independent of one another (an earlier failure or error never aborts or
contaminates the remaining checks, because the transaction is rolled back
and the loop continues); a zero-row result is recorded as `PASS`, a
non-empty result as `FAIL` with all returned rows captured as the evidence,
and a raised exception as `ERROR` with the message captured — `run_all`
itself is total and never re-raises. -/
theorem C8_qa_per_predicate_semantics (db : Nat → QAOutcome) :
    qaRunAll db = (qaQueryIds.map fun i => qaStep i (db i)) ∧
    (qaRunAll db).length = qaQueryIds.length ∧
    (∀ i, qaStep i (.ok []) =
      ⟨i, qaDescription i, "PASS", .msg "_No rows returned — OK_"⟩) ∧
    (∀ i rs, rs ≠ [] → qaStep i (.ok rs) = ⟨i, qaDescription i, "FAIL", .rows rs⟩) ∧
    (∀ i e, qaStep i (.error e) = ⟨i, qaDescription i, "ERROR", .msg e⟩) := by
  refine ⟨qaRunAux_false db qaQueryIds, ?_, fun i => rfl, ?_, fun i e => rfl⟩
  · unfold qaRunAll
    rw [qaRunAux_false db qaQueryIds, List.length_map]
  · intro i rs hrs
    cases rs with
    | nil => exact absurd rfl hrs
    | cons a t => rfl

/-- Witness for C8 at a concrete database behaviour: predicate 3 errors,
predicate 5 fails with one captured row, the loop still yields one entry
per predicate and later predicates are unaffected. -/
theorem C8_qa_per_predicate_semantics_witness :
    qaRunAll qaDbSample = (qaQueryIds.map fun i => qaStep i (qaDbSample i)) ∧
    (qaRunAll qaDbSample).length = 7 ∧
    qaStep 5 (.ok [[("encounter_id", "17")]]) =
      ⟨5, "Check for duplicate encounter IDs", "FAIL",
       .rows [[("encounter_id", "17")]]⟩ ∧
    qaStep 3 (.error "boom") =
      ⟨3, "Check for orphan encounters", "ERROR", .msg "boom"⟩ := by
  have h := C8_qa_per_predicate_semantics qaDbSample
  refine ⟨h.1, h.2.1, ?_, h.2.2.2.2 3 "boom"⟩
  exact h.2.2.2.1 5 [[("encounter_id", "17")]] (by simp)

/-! ## Claim C4 -/

theorem foldl_min_le (d : Nat) (ds : List Nat) : ds.foldl min d ≤ d := by
  induction ds generalizing d with
  | nil => exact Nat.le_refl d
  | cons a t ih => exact Nat.le_trans (ih (min d a)) (Nat.min_le_left d a)

theorem le_foldl_max (d : Nat) (ds : List Nat) : d ≤ ds.foldl max d := by
  induction ds generalizing d with
  | nil => exact Nat.le_refl d
  | cons a t ih => exact Nat.le_trans (Nat.le_max_left d a) (ih (max d a))

/-- The observed date range is well ordered. -/
theorem minMaxDates_le {op : Store} {dmin dmax : Nat}
    (h : minMaxDates op = some (dmin, dmax)) : dmin ≤ dmax := by
  unfold minMaxDates at h
  cases he : op.encounters.map (·.encounter_date) with
  | nil => rw [he] at h; cases h
  | cons d ds =>
    rw [he] at h
    cases h
    exact Nat.le_trans (foldl_min_le d ds) (le_foldl_max d ds)

/-- C4: time-dimension completeness.  When the operational store has no
encounters, `populate_dim_time` emits no time rows and returns without
error (it returns the warehouse unchanged with a zero count).  When the
encounters span dates from `dmin` to `dmax`, the emitted rows are exactly
one per calendar day from `dmin` to `dmax` inclusive, in order and with no
gaps — `(dmax - dmin) + 1` rows in total, which is also the recorded
count — and the `i`-th row is `mkTimeRow (dmin + i)`, carrying the derived
calendar attributes (year, ISO week, weekday name, weekend flag, fiscal
quarter) of its day. -/
theorem C4_time_dimension_complete (w : Warehouse) (op : Store) :
    (op.encounters = [] →
      timeRecords op = [] ∧ populateDimTime w op = (w, 0)) ∧
    (∀ dmin dmax, minMaxDates op = some (dmin, dmax) →
      dmin ≤ dmax ∧
      timeRecords op = ((List.range (dmax - dmin + 1)).map fun i => mkTimeRow (dmin + i)) ∧
      (timeRecords op).length = dmax - dmin + 1 ∧
      (populateDimTime w op).2 = dmax - dmin + 1 ∧
      ∀ i, i < dmax - dmin + 1 →
        (timeRecords op).getD i (mkTimeRow 0) = mkTimeRow (dmin + i)) := by
  constructor
  · intro hE
    have hmm : minMaxDates op = none := by
      unfold minMaxDates
      rw [hE]
      rfl
    constructor
    · unfold timeRecords
      rw [hmm]
    · unfold populateDimTime
      rw [hmm]
  · intro dmin dmax hmm
    have hle : dmin ≤ dmax := minMaxDates_le hmm
    have hrange : dmax + 1 - dmin = dmax - dmin + 1 := by omega
    have htr : timeRecords op =
        ((List.range (dmax - dmin + 1)).map fun i => mkTimeRow (dmin + i)) := by
      unfold timeRecords
      rw [hmm]
      dsimp only
      rw [hrange]
    have hlen : (timeRecords op).length = dmax - dmin + 1 := by
      rw [htr, List.length_map, List.length_range]
    refine ⟨hle, htr, hlen, ?_, ?_⟩
    · unfold populateDimTime
      rw [hmm]
      dsimp only
      exact hlen
    · intro i hi
      have hi2 : i < (timeRecords op).length := by rw [hlen]; exact hi
      rw [List.getD_eq_getElem _ _ hi2]
      simp only [htr]
      rw [List.getElem_map, List.getElem_range]

/-! ## Warehouse stage lemmas -/

theorem foldl_fix {α : Type u} {β : Type v} {γ : Type w} (f : α → β → α) (g : α → γ)
    (h : ∀ a b, g (f a b) = g a) :
    ∀ (l : List β) (a : α), g (l.foldl f a) = g a
  | [], _ => rfl
  | b :: t, a => (foldl_fix f g h t (f a b)).trans (h a b)

theorem populateDimTime_rest (w : Warehouse) (op : Store) :
    (populateDimTime w op).1.dimPatient = w.dimPatient ∧
    (populateDimTime w op).1.dimProcedure = w.dimProcedure ∧
    (populateDimTime w op).1.dimDiagnosis = w.dimDiagnosis ∧
    (populateDimTime w op).1.factEncounters = w.factEncounters ∧
    (populateDimTime w op).1.bridgeProcs = w.bridgeProcs ∧
    (populateDimTime w op).1.bridgeDiags = w.bridgeDiags := by
  unfold populateDimTime
  cases hmm : minMaxDates op with
  | none => exact ⟨rfl, rfl, rfl, rfl, rfl, rfl⟩
  | some mm =>
    dsimp only
    refine ⟨?_, ?_, ?_, ?_, ?_, ?_⟩ <;>
      exact foldl_fix _ _ (fun a b => by unfold insertDimTime; split <;> rfl) _ _

theorem populateDimPatient_rest (w : Warehouse) (op : Store) :
    (populateDimPatient w op).dimTime = w.dimTime ∧
    (populateDimPatient w op).dimProcedure = w.dimProcedure ∧
    (populateDimPatient w op).dimDiagnosis = w.dimDiagnosis ∧
    (populateDimPatient w op).factEncounters = w.factEncounters ∧
    (populateDimPatient w op).bridgeProcs = w.bridgeProcs ∧
    (populateDimPatient w op).bridgeDiags = w.bridgeDiags := by
  unfold populateDimPatient
  refine ⟨?_, ?_, ?_, ?_, ?_, ?_⟩ <;>
    exact foldl_fix _ _ (fun a b => by unfold insertDimPatient; split <;> rfl) _ _

theorem populateDimProcedure_rest (w : Warehouse) (op : Store) :
    (populateDimProcedure w op).dimPatient = w.dimPatient ∧
    (populateDimProcedure w op).dimDiagnosis = w.dimDiagnosis ∧
    (populateDimProcedure w op).factEncounters = w.factEncounters ∧
    (populateDimProcedure w op).bridgeProcs = w.bridgeProcs ∧
    (populateDimProcedure w op).bridgeDiags = w.bridgeDiags := by
  unfold populateDimProcedure
  refine ⟨?_, ?_, ?_, ?_, ?_⟩ <;>
    exact foldl_fix _ _ (fun a b => by unfold insertDimProcedure; split <;> rfl) _ _

theorem populateDimDiagnosis_rest (w : Warehouse) (op : Store) :
    (populateDimDiagnosis w op).dimPatient = w.dimPatient ∧
    (populateDimDiagnosis w op).dimProcedure = w.dimProcedure ∧
    (populateDimDiagnosis w op).factEncounters = w.factEncounters ∧
    (populateDimDiagnosis w op).bridgeProcs = w.bridgeProcs ∧
    (populateDimDiagnosis w op).bridgeDiags = w.bridgeDiags := by
  unfold populateDimDiagnosis
  refine ⟨?_, ?_, ?_, ?_, ?_⟩ <;>
    exact foldl_fix _ _ (fun a b => by unfold insertDimDiagnosis; split <;> rfl) _ _

theorem populateFactEncounters_rest (w : Warehouse) (op : Store) :
    (populateFactEncounters w op).dimPatient = w.dimPatient ∧
    (populateFactEncounters w op).dimProcedure = w.dimProcedure ∧
    (populateFactEncounters w op).dimDiagnosis = w.dimDiagnosis ∧
    (populateFactEncounters w op).bridgeProcs = w.bridgeProcs ∧
    (populateFactEncounters w op).bridgeDiags = w.bridgeDiags := by
  unfold populateFactEncounters
  refine ⟨?_, ?_, ?_, ?_, ?_⟩ <;>
    exact foldl_fix _ _ (fun a b => by unfold insertFact; split <;> rfl) _ _

theorem populateBridgeProcs_rest (w : Warehouse) (op : Store) :
    (populateBridgeProcs w op).dimPatient = w.dimPatient ∧
    (populateBridgeProcs w op).dimProcedure = w.dimProcedure ∧
    (populateBridgeProcs w op).dimDiagnosis = w.dimDiagnosis ∧
    (populateBridgeProcs w op).factEncounters = w.factEncounters ∧
    (populateBridgeProcs w op).bridgeDiags = w.bridgeDiags := by
  unfold populateBridgeProcs
  refine ⟨?_, ?_, ?_, ?_, ?_⟩ <;>
    exact foldl_fix _ _ (fun a b => by unfold insertBridgeProc; split <;> rfl) _ _

theorem populateBridgeDiags_rest (w : Warehouse) (op : Store) :
    (populateBridgeDiags w op).dimPatient = w.dimPatient ∧
    (populateBridgeDiags w op).dimProcedure = w.dimProcedure ∧
    (populateBridgeDiags w op).dimDiagnosis = w.dimDiagnosis ∧
    (populateBridgeDiags w op).factEncounters = w.factEncounters ∧
    (populateBridgeDiags w op).bridgeProcs = w.bridgeProcs := by
  unfold populateBridgeDiags
  refine ⟨?_, ?_, ?_, ?_, ?_⟩ <;>
    exact foldl_fix _ _ (fun a b => by unfold insertBridgeDiag; split <;> rfl) _ _

/-- Every fact row in a fold of conflict-safe fact inserts either predates
the fold or carries the payload of one of the candidate rows. -/
theorem mem_foldl_insertFact {x : FactRow} :
    ∀ (cands : List FactInfo) (w : Warehouse),
      x ∈ (cands.foldl insertFact w).factEncounters →
      x ∈ w.factEncounters ∨
        ∃ info ∈ cands, x.patient_key = info.patient_key ∧
          x.encounter_id = info.encounter_id
  | [], _, hx => Or.inl hx
  | c :: t, w, hx => by
    rcases mem_foldl_insertFact t (insertFact w c) hx with h | ⟨info, hi, hpk⟩
    · unfold insertFact at h
      split at h
      · exact Or.inl h
      · dsimp only at h
        rcases List.mem_append.mp h with h2 | h2
        · exact Or.inl h2
        · rcases List.mem_singleton.mp h2 with rfl
          exact Or.inr ⟨c, List.mem_cons_self .., rfl, rfl⟩
    · exact Or.inr ⟨info, List.mem_cons_of_mem _ hi, hpk⟩

/-- Bridge-procedure rows in a fold of conflict-safe inserts come from the
initial table or verbatim from the candidates. -/
theorem mem_foldl_insertBridgeProc {x : BridgeProcRow} :
    ∀ (cands : List BridgeProcRow) (w : Warehouse),
      x ∈ (cands.foldl insertBridgeProc w).bridgeProcs →
      x ∈ w.bridgeProcs ∨ x ∈ cands
  | [], _, hx => Or.inl hx
  | c :: t, w, hx => by
    rcases mem_foldl_insertBridgeProc t (insertBridgeProc w c) hx with h | h
    · unfold insertBridgeProc at h
      split at h
      · exact Or.inl h
      · dsimp only at h
        rcases List.mem_append.mp h with h2 | h2
        · exact Or.inl h2
        · rcases List.mem_singleton.mp h2 with rfl
          exact Or.inr (List.mem_cons_self ..)
    · exact Or.inr (List.mem_cons_of_mem _ h)

/-- Bridge-diagnosis rows in a fold of conflict-safe inserts come from the
initial table or verbatim from the candidates. -/
theorem mem_foldl_insertBridgeDiag {x : BridgeDiagRow} :
    ∀ (cands : List BridgeDiagRow) (w : Warehouse),
      x ∈ (cands.foldl insertBridgeDiag w).bridgeDiags →
      x ∈ w.bridgeDiags ∨ x ∈ cands
  | [], _, hx => Or.inl hx
  | c :: t, w, hx => by
    rcases mem_foldl_insertBridgeDiag t (insertBridgeDiag w c) hx with h | h
    · unfold insertBridgeDiag at h
      split at h
      · exact Or.inl h
      · dsimp only at h
        rcases List.mem_append.mp h with h2 | h2
        · exact Or.inl h2
        · rcases List.mem_singleton.mp h2 with rfl
          exact Or.inr (List.mem_cons_self ..)
    · exact Or.inr (List.mem_cons_of_mem _ h)

/-- A fact-candidate row is built from an operational encounter and a
matching patient-dimension row of the warehouse it was computed against. -/
theorem factCandidates_spec {w : Warehouse} {op : Store} {info : FactInfo}
    (h : info ∈ factCandidates w op) :
    ∃ e ∈ op.encounters, ∃ dp ∈ w.dimPatient,
      dp.patient_id = stripToInt e.patient_id ∧ info = factCandidate op e dp := by
  unfold factCandidates at h
  rw [mem_dedupFirst] at h
  rcases List.mem_flatten.mp h with ⟨L, hL, hiL⟩
  rcases List.mem_map.mp hL with ⟨e, he, rfl⟩
  rcases List.mem_map.mp hiL with ⟨dp, hdp, rfl⟩
  have hf := List.mem_filter.mp hdp
  exact ⟨e, he, dp, hf.1, by simpa using hf.2, rfl⟩

/-- A bridge-procedure candidate's keys come from an existing fact row and
an existing procedure-dimension row. -/
theorem bridgeProcCandidates_spec {w : Warehouse} {op : Store} {b : BridgeProcRow}
    (h : b ∈ bridgeProcCandidates w op) :
    ∃ f ∈ w.factEncounters, ∃ dp ∈ w.dimProcedure,
      b.encounter_key = f.encounter_key ∧ b.procedure_key = dp.procedure_key := by
  unfold bridgeProcCandidates at h
  rw [mem_dedupFirst] at h
  rcases List.mem_flatten.mp h with ⟨L1, hL1, hb1⟩
  rcases List.mem_map.mp hL1 with ⟨f, hf, rfl⟩
  rcases List.mem_flatten.mp hb1 with ⟨L2, hL2, hb2⟩
  rcases List.mem_map.mp hL2 with ⟨e, _, rfl⟩
  rcases List.mem_flatten.mp hb2 with ⟨L3, hL3, hb3⟩
  rcases List.mem_map.mp hL3 with ⟨p, _, rfl⟩
  rcases List.mem_map.mp hb3 with ⟨dp, hdp, rfl⟩
  exact ⟨f, hf, dp, (List.mem_filter.mp hdp).1, rfl, rfl⟩

/-- A bridge-diagnosis candidate's keys come from an existing fact row and
an existing diagnosis-dimension row. -/
theorem bridgeDiagCandidates_spec {w : Warehouse} {op : Store} {b : BridgeDiagRow}
    (h : b ∈ bridgeDiagCandidates w op) :
    ∃ f ∈ w.factEncounters, ∃ dd ∈ w.dimDiagnosis,
      b.encounter_key = f.encounter_key ∧ b.diagnosis_key = dd.diagnosis_key := by
  unfold bridgeDiagCandidates at h
  rw [mem_dedupFirst] at h
  rcases List.mem_flatten.mp h with ⟨L1, hL1, hb1⟩
  rcases List.mem_map.mp hL1 with ⟨f, hf, rfl⟩
  rcases List.mem_flatten.mp hb1 with ⟨L2, hL2, hb2⟩
  rcases List.mem_map.mp hL2 with ⟨e, _, rfl⟩
  rcases List.mem_flatten.mp hb2 with ⟨L3, hL3, hb3⟩
  rcases List.mem_map.mp hL3 with ⟨ed, _, rfl⟩
  rcases List.mem_map.mp hb3 with ⟨dd, hdd, rfl⟩
  exact ⟨f, hf, dd, (List.mem_filter.mp hdd).1, rfl, rfl⟩

/-- Witness for C4 at two concrete stores: the sample store spans
2022-01-08 to 2022-01-10 (three rows, no gaps), and a store with no
encounters emits nothing. -/
theorem C4_time_dimension_complete_witness :
    timeRecords freshStore = [] ∧
    minMaxDates sampleOp = some (19000, 19002) ∧
    (timeRecords sampleOp).length = 3 ∧
    timeRecords sampleOp = [mkTimeRow 19000, mkTimeRow 19001, mkTimeRow 19002] := by
  have h1 := (C4_time_dimension_complete freshWarehouse freshStore).1 rfl
  have hmm : minMaxDates sampleOp = some (19000, 19002) := by decide
  have h2 := (C4_time_dimension_complete freshWarehouse sampleOp).2 19000 19002 hmm
  refine ⟨h1.1, hmm, h2.2.2.1, ?_⟩
  rw [h2.2.1]
  rfl

/-! ## Claim C5 -/

/-- C5: fact and bridge referential integrity.  After a full Dimensional
Transformation Engine run, every `fact_encounters.patient_key` equals the
`patient_key` of some `dim_patient` row; every bridge row's
`(encounter_key, procedure_key)` respectively `(encounter_key,
diagnosis_key)` resolve to an existing fact row and dimension row; and
every fact row originates from an operational encounter inner-joined to a
matching `dim_patient` row — so an encounter whose patient has no dimension
row produces no fact row (it is excluded, not null-padded). -/
theorem C5_fact_bridge_referential_integrity (w0 : Warehouse) (op : Store) :
    (∀ f ∈ (runWarehouse w0 op).factEncounters,
      ∃ dp ∈ (runWarehouse w0 op).dimPatient, dp.patient_key = f.patient_key) ∧
    (∀ b ∈ (runWarehouse w0 op).bridgeProcs,
      (∃ f ∈ (runWarehouse w0 op).factEncounters, f.encounter_key = b.encounter_key) ∧
      (∃ dp ∈ (runWarehouse w0 op).dimProcedure, dp.procedure_key = b.procedure_key)) ∧
    (∀ b ∈ (runWarehouse w0 op).bridgeDiags,
      (∃ f ∈ (runWarehouse w0 op).factEncounters, f.encounter_key = b.encounter_key) ∧
      (∃ dd ∈ (runWarehouse w0 op).dimDiagnosis, dd.diagnosis_key = b.diagnosis_key)) ∧
    (∀ f ∈ (runWarehouse w0 op).factEncounters,
      ∃ e ∈ op.encounters, ∃ dp ∈ (runWarehouse w0 op).dimPatient,
        dp.patient_id = stripToInt e.patient_id ∧
        f.encounter_id = stripToInt e.encounter_id ∧
        f.patient_key = dp.patient_key) := by
  set w2 := (populateDimTime (clearWarehouse w0) op).1 with hw2
  set w3 := populateDimPatient w2 op with hw3
  set w4 := populateDimProcedure w3 op with hw4
  set w5 := populateDimDiagnosis w4 op with hw5
  set w6 := populateFactEncounters w5 op with hw6
  set w7 := populateBridgeProcs w6 op with hw7
  have hRun : runWarehouse w0 op = populateBridgeDiags w7 op := by
    rw [hw7, hw6, hw5, hw4, hw3, hw2]
    rfl
  have hFact : (runWarehouse w0 op).factEncounters = w6.factEncounters := by
    rw [hRun, (populateBridgeDiags_rest _ _).2.2.2.1, hw7,
      (populateBridgeProcs_rest _ _).2.2.2.1]
  have hDimPat : (runWarehouse w0 op).dimPatient = w5.dimPatient := by
    rw [hRun, (populateBridgeDiags_rest _ _).1, hw7, (populateBridgeProcs_rest _ _).1,
      hw6, (populateFactEncounters_rest _ _).1]
  have hDimProc : (runWarehouse w0 op).dimProcedure = w6.dimProcedure := by
    rw [hRun, (populateBridgeDiags_rest _ _).2.1, hw7, (populateBridgeProcs_rest _ _).2.1]
  have hDimDiag : (runWarehouse w0 op).dimDiagnosis = w7.dimDiagnosis := by
    rw [hRun, (populateBridgeDiags_rest _ _).2.2.1]
  have hFactInit : w5.factEncounters = [] := by
    rw [hw5, (populateDimDiagnosis_rest _ _).2.2.1, hw4,
      (populateDimProcedure_rest _ _).2.2.1, hw3, (populateDimPatient_rest _ _).2.2.2.1,
      hw2, (populateDimTime_rest _ _).2.2.2.1]
    rfl
  have hBP6 : w6.bridgeProcs = [] := by
    rw [hw6, (populateFactEncounters_rest _ _).2.2.2.1, hw5,
      (populateDimDiagnosis_rest _ _).2.2.2.1, hw4,
      (populateDimProcedure_rest _ _).2.2.2.1, hw3,
      (populateDimPatient_rest _ _).2.2.2.2.1, hw2,
      (populateDimTime_rest _ _).2.2.2.2.1]
    rfl
  have hBD7 : w7.bridgeDiags = [] := by
    rw [hw7, (populateBridgeProcs_rest _ _).2.2.2.2, hw6,
      (populateFactEncounters_rest _ _).2.2.2.2, hw5,
      (populateDimDiagnosis_rest _ _).2.2.2.2, hw4,
      (populateDimProcedure_rest _ _).2.2.2.2, hw3,
      (populateDimPatient_rest _ _).2.2.2.2.2, hw2,
      (populateDimTime_rest _ _).2.2.2.2.2]
    rfl
  have hfact_src : ∀ f ∈ (runWarehouse w0 op).factEncounters,
      ∃ e ∈ op.encounters, ∃ dp ∈ (runWarehouse w0 op).dimPatient,
        dp.patient_id = stripToInt e.patient_id ∧
        f.encounter_id = stripToInt e.encounter_id ∧
        f.patient_key = dp.patient_key := by
    intro f hf
    rw [hFact, hw6] at hf
    unfold populateFactEncounters at hf
    rcases mem_foldl_insertFact _ _ hf with h | ⟨info, hi, hpk, hei⟩
    · rw [hFactInit] at h
      exact (List.not_mem_nil f h).elim
    · rcases factCandidates_spec hi with ⟨e, he, dp, hdp, hpid, rfl⟩
      refine ⟨e, he, dp, ?_, hpid, hei, hpk⟩
      rw [hDimPat]
      exact hdp
  refine ⟨fun f hf => ?_, fun b hb => ?_, fun b hb => ?_, hfact_src⟩
  · rcases hfact_src f hf with ⟨e, he, dp, hdp, _, _, hpk⟩
    exact ⟨dp, hdp, hpk.symm⟩
  · have hBPrun : (runWarehouse w0 op).bridgeProcs =
        (populateBridgeProcs w6 op).bridgeProcs := by
      rw [hRun, (populateBridgeDiags_rest _ _).2.2.2.2, hw7]
    rw [hBPrun] at hb
    unfold populateBridgeProcs at hb
    rcases mem_foldl_insertBridgeProc _ _ hb with h | h
    · rw [hBP6] at h
      exact (List.not_mem_nil b h).elim
    · rcases bridgeProcCandidates_spec h with ⟨f, hf, dp, hdp, hek, hpk⟩
      constructor
      · exact ⟨f, by rw [hFact]; exact hf, hek.symm⟩
      · exact ⟨dp, by rw [hDimProc]; exact hdp, hpk.symm⟩
  · rw [hRun] at hb
    unfold populateBridgeDiags at hb
    rcases mem_foldl_insertBridgeDiag _ _ hb with h | h
    · rw [hBD7] at h
      exact (List.not_mem_nil b h).elim
    · rcases bridgeDiagCandidates_spec h with ⟨f, hf, dd, hdd, hek, hdk⟩
      have hF7 : w7.factEncounters = w6.factEncounters := by
        rw [hw7, (populateBridgeProcs_rest _ _).2.2.2.1]
      constructor
      · exact ⟨f, by rw [hFact, ← hF7]; exact hf, hek.symm⟩
      · exact ⟨dd, by rw [hDimDiag]; exact hdd, hdk.symm⟩

/-- Witness for C5 at the concrete sample store: the fact row, bridge
rows, and their resolving dimension rows are exhibited. -/
theorem C5_fact_bridge_referential_integrity_witness :
    (∃ dp ∈ (runWarehouse freshWarehouse sampleOp).dimPatient, dp.patient_key = 1) ∧
    (∃ f ∈ (runWarehouse freshWarehouse sampleOp).factEncounters, f.encounter_key = 1) ∧
    (∃ dd ∈ (runWarehouse freshWarehouse sampleOp).dimDiagnosis, dd.diagnosis_key = 1) := by
  have h := C5_fact_bridge_referential_integrity freshWarehouse sampleOp
  refine ⟨?_, ?_, ?_⟩
  · exact h.1 ⟨1, 1, 1, 20220108, 1, "Inpatient", 1, 1, 0⟩ (by decide)
  · exact (h.2.2.1 ⟨1, 1, "Primary"⟩ (by decide)).1
  · exact (h.2.2.1 ⟨1, 1, "Primary"⟩ (by decide)).2

/-! ## Claim C10 -/

/-- Membership characterisation for the patient-dimension fold: every row
comes from the initial table or carries the payload of some candidate. -/
theorem mem_foldl_insertDimPatient {x : DimPatientRow} :
    ∀ (cands : List DimPatientInfo) (w : Warehouse),
      x ∈ (cands.foldl insertDimPatient w).dimPatient →
      x ∈ w.dimPatient ∨ ∃ info ∈ cands,
        x.patient_id = info.patient_id ∧ x.age = info.age ∧
        x.age_group = info.age_group
  | [], _, hx => Or.inl hx
  | c :: t, w, hx => by
    rcases mem_foldl_insertDimPatient t (insertDimPatient w c) hx with h | ⟨info, hi, hps⟩
    · unfold insertDimPatient at h
      split at h
      · exact Or.inl h
      · dsimp only at h
        rcases List.mem_append.mp h with h2 | h2
        · exact Or.inl h2
        · rcases List.mem_singleton.mp h2 with rfl
          exact Or.inr ⟨c, List.mem_cons_self .., rfl, rfl, rfl⟩
    · exact Or.inr ⟨info, List.mem_cons_of_mem _ hi, hps⟩

theorem insertDimPatient_mem {w : Warehouse} {x : DimPatientRow}
    (hx : x ∈ w.dimPatient) (info : DimPatientInfo) :
    x ∈ (insertDimPatient w info).dimPatient := by
  unfold insertDimPatient
  split
  · exact hx
  · exact List.mem_append_left _ hx

/-- A processed candidate always leaves some row with its derived integer
patient id in the table (either freshly inserted or the conflicting row). -/
theorem exists_foldl_insertDimPatient {info : DimPatientInfo}
    (cands : List DimPatientInfo) (w : Warehouse) (hi : info ∈ cands) :
    ∃ x ∈ (cands.foldl insertDimPatient w).dimPatient,
      x.patient_id = info.patient_id := by
  refine foldl_establish insertDimPatient
    (fun w : Warehouse => ∃ x ∈ w.dimPatient, x.patient_id = info.patient_id)
    (fun a b hb => ?_) (fun b => b = info) (fun a b hg => ?_) _ _ info hi rfl
  · rcases hb with ⟨x, hx, hpx⟩
    exact ⟨x, insertDimPatient_mem hx b, hpx⟩
  · subst hg
    unfold insertDimPatient
    split
    · rename_i h
      rcases List.any_eq_true.mp h with ⟨x, hx, hcond⟩
      exact ⟨x, hx, of_decide_eq_true hcond⟩
    · exact ⟨_, List.mem_append_right _ (List.mem_singleton.mpr rfl), rfl⟩

/-- The `SELECT` row computed for a patient with no encounters: `NULL` age
and the `ELSE`-branch age group. -/
theorem dimPatientCandidate_no_encounters {op : Store} {p : Patient}
    (henc : ∀ e ∈ op.encounters, e.patient_id ≠ p.patient_id) :
    dimPatientCandidate op p =
      ⟨stripToInt p.patient_id, none, p.gender, "Elderly", "Kigali"⟩ := by
  unfold dimPatientCandidate
  have hf : (op.encounters.filter fun e => decide (e.patient_id = p.patient_id)) = [] :=
    List.filter_eq_nil_iff.mpr fun e he => by simp [henc e he]
  rw [hf]
  rfl

/-- C10: an operational patient with zero encounters still receives a
`dim_patient` row (the `LEFT JOIN` keeps the patient), and for such a
patient the computed age is `NULL` and `age_group` is `'Elderly'` (the SQL
`CASE` fall-through on `NULL` comparisons), regardless of the patient's
date of birth.  The digit-stripped-id injectivity hypothesis rules out a
conflicting insert swallowing the row. -/
theorem C10_zero_encounter_patient_row (w0 : Warehouse) (op : Store) (p : Patient)
    (hp : p ∈ op.patients)
    (henc : ∀ e ∈ op.encounters, e.patient_id ≠ p.patient_id)
    (hinj : ∀ q ∈ op.patients,
      stripToInt q.patient_id = stripToInt p.patient_id → q = p) :
    ∃ row ∈ (runWarehouse w0 op).dimPatient,
      row.patient_id = stripToInt p.patient_id ∧ row.age = none ∧
      row.age_group = "Elderly" := by
  set w2 := (populateDimTime (clearWarehouse w0) op).1 with hw2
  set w3 := populateDimPatient w2 op with hw3
  have hDimPat : (runWarehouse w0 op).dimPatient = w3.dimPatient := by
    have : runWarehouse w0 op =
        populateBridgeDiags (populateBridgeProcs (populateFactEncounters
          (populateDimDiagnosis (populateDimProcedure w3 op) op) op) op) op := by
      rw [hw3, hw2]
      rfl
    rw [this, (populateBridgeDiags_rest _ _).1, (populateBridgeProcs_rest _ _).1,
      (populateFactEncounters_rest _ _).1, (populateDimDiagnosis_rest _ _).1,
      (populateDimProcedure_rest _ _).1]
  have hInit : w2.dimPatient = [] := by
    rw [hw2, (populateDimTime_rest _ _).1]
    rfl
  have hcand : dimPatientCandidate op p ∈ op.patients.map (dimPatientCandidate op) :=
    List.mem_map_of_mem _ hp
  rw [hDimPat, hw3]
  unfold populateDimPatient
  rcases exists_foldl_insertDimPatient (op.patients.map (dimPatientCandidate op)) w2
    hcand with ⟨x, hx, hpx⟩
  have hchar := mem_foldl_insertDimPatient _ _ hx
  rcases hchar with h | ⟨info, hiM, hid, hage, hgrp⟩
  · rw [hInit] at h
    exact (List.not_mem_nil x h).elim
  · rcases List.mem_map.mp hiM with ⟨q, hq, rfl⟩
    have hqp : q = p := by
      apply hinj q hq
      have : x.patient_id = stripToInt q.patient_id := by
        rw [hid]
        rfl
      rw [← this, hpx, dimPatientCandidate_no_encounters henc]
    subst hqp
    rw [dimPatientCandidate_no_encounters henc] at hid hage hgrp
    exact ⟨x, hx, hid, hage, hgrp⟩

/-- Witness for C10: the second patient of the sample store has no
encounters and receives a row with `NULL` age and `age_group = 'Elderly'`. -/
theorem C10_zero_encounter_patient_row_witness :
    ∃ row ∈ (runWarehouse freshWarehouse sampleOp).dimPatient,
      row.patient_id = stripToInt "PAT0000002" ∧ row.age = none ∧
      row.age_group = "Elderly" := by
  exact C10_zero_encounter_patient_row freshWarehouse sampleOp
    ⟨"PAT0000002", 2000, "F", "c@d"⟩ (by decide) (by decide) (by decide)

/-! ## Decimal digit lemmas -/

theorem digitsToNat_foldl (l : List Char) :
    ∀ a : Nat, l.foldl (fun x c => x * 10 + digitVal c) a =
      a * 10 ^ l.length + digitsToNat l := by
  induction l with
  | nil => intro a; simp [digitsToNat]
  | cons c t ih =>
    intro a
    have h1 : digitsToNat (c :: t) = digitVal c * 10 ^ t.length + digitsToNat t := by
      show List.foldl _ (0 * 10 + digitVal c) t = _
      rw [ih (0 * 10 + digitVal c)]
      ring_nf
    show List.foldl _ (a * 10 + digitVal c) t = _
    rw [ih (a * 10 + digitVal c), h1, List.length_cons]
    ring

theorem digitsToNat_cons (c : Char) (t : List Char) :
    digitsToNat (c :: t) = digitVal c * 10 ^ t.length + digitsToNat t := by
  show List.foldl _ (0 * 10 + digitVal c) t = _
  rw [digitsToNat_foldl]
  ring_nf

theorem digitsToNat_append (a b : List Char) :
    digitsToNat (a ++ b) = digitsToNat a * 10 ^ b.length + digitsToNat b := by
  unfold digitsToNat
  rw [List.foldl_append]
  rw [show List.foldl (fun x c => x * 10 + digitVal c) 0 a = digitsToNat a from rfl]
  exact digitsToNat_foldl b (digitsToNat a)

theorem digitsToNat_snoc (ds : List Char) (c : Char) :
    digitsToNat (ds ++ [c]) = digitsToNat ds * 10 + digitVal c := by
  rw [digitsToNat_append]
  simp [digitsToNat_cons, digitsToNat]

/-- ASCII bounds of a digit character. -/
theorem isDigit_bounds {c : Char} (h : c.isDigit = true) :
    48 ≤ c.toNat ∧ c.toNat ≤ 57 := by
  simp only [Char.isDigit, Bool.and_eq_true, decide_eq_true_iff] at h
  exact ⟨h.1, h.2⟩

theorem digitVal_le_nine {c : Char} (h : c.isDigit = true) : digitVal c ≤ 9 := by
  have hb := isDigit_bounds h
  unfold digitVal
  omega

/-- Two digit characters with the same value are the same character. -/
theorem digit_char_inj {c d : Char} (hc : c.isDigit = true) (hd : d.isDigit = true)
    (h : digitVal c = digitVal d) : c = d := by
  have hbc := isDigit_bounds hc
  have hbd := isDigit_bounds hd
  have : c.toNat = d.toNat := by
    unfold digitVal at h
    omega
  exact Char.ext (UInt32.toNat.inj this)

theorem digitsToNat_lt {ds : List Char} (h : ∀ c ∈ ds, c.isDigit = true) :
    digitsToNat ds < 10 ^ ds.length := by
  induction ds with
  | nil => simp [digitsToNat]
  | cons c t ih =>
    rw [digitsToNat_cons]
    have h1 : digitVal c ≤ 9 := digitVal_le_nine (h c (List.mem_cons_self ..))
    have h2 : digitsToNat t < 10 ^ t.length := ih fun x hx => h x (List.mem_cons_of_mem _ hx)
    have : digitVal c * 10 ^ t.length + digitsToNat t <
        (digitVal c + 1) * 10 ^ t.length := by
      have hp : 0 < 10 ^ t.length := Nat.pos_pow_of_pos _ (by norm_num)
      calc digitVal c * 10 ^ t.length + digitsToNat t
          < digitVal c * 10 ^ t.length + 10 ^ t.length := by omega
        _ = (digitVal c + 1) * 10 ^ t.length := by ring
    calc digitVal c * 10 ^ t.length + digitsToNat t
        < (digitVal c + 1) * 10 ^ t.length := this
      _ ≤ 10 * 10 ^ t.length := Nat.mul_le_mul_right _ (by omega)
      _ = 10 ^ (t.length + 1) := by ring
      _ = 10 ^ (c :: t).length := by rw [List.length_cons]

theorem digitVal_digitChar {d : Nat} (h : d < 10) :
    digitVal (Nat.digitChar d) = d := by
  interval_cases d <;> rfl

theorem isDigit_digitChar {d : Nat} (h : d < 10) :
    (Nat.digitChar d).isDigit = true := by
  interval_cases d <;> rfl

theorem decimalAux_val : ∀ (fuel n : Nat), n < fuel →
    digitsToNat (decimalAux fuel n) = n := by
  intro fuel
  induction fuel with
  | zero => intro n h; omega
  | succ f ih =>
    intro n h
    unfold decimalAux
    by_cases h10 : n < 10
    · rw [if_pos h10]
      show digitsToNat [Nat.digitChar n] = n
      rw [show [Nat.digitChar n] = [] ++ [Nat.digitChar n] from rfl, digitsToNat_snoc]
      simp [digitsToNat, digitVal_digitChar h10]
    · rw [if_neg h10]
      rw [digitsToNat_snoc]
      have hdiv : n / 10 < f := by
        have h1 : n / 10 < n := Nat.div_lt_self (by omega) (by norm_num)
        omega
      rw [ih (n / 10) hdiv, digitVal_digitChar (Nat.mod_lt n (by norm_num))]
      omega

theorem decimalAux_digits : ∀ (fuel n : Nat) (c : Char),
    c ∈ decimalAux fuel n → c.isDigit = true := by
  intro fuel
  induction fuel with
  | zero => intro n c h; simp [decimalAux] at h
  | succ f ih =>
    intro n c h
    unfold decimalAux at h
    by_cases h10 : n < 10
    · rw [if_pos h10] at h
      rcases List.mem_singleton.mp h with rfl
      exact isDigit_digitChar h10
    · rw [if_neg h10] at h
      rcases List.mem_append.mp h with h2 | h2
      · exact ih (n / 10) c h2
      · rcases List.mem_singleton.mp h2 with rfl
        exact isDigit_digitChar (Nat.mod_lt n (by norm_num))

theorem decimalDigits_val (n : Nat) : digitsToNat (decimalDigits n) = n :=
  decimalAux_val (n + 1) n (Nat.lt_succ_self n)

theorem decimalDigits_digits {n : Nat} {c : Char} (h : c ∈ decimalDigits n) :
    c.isDigit = true :=
  decimalAux_digits (n + 1) n c h

theorem digitsToNat_replicate_zero (k : Nat) (ds : List Char) :
    digitsToNat (List.replicate k '0' ++ ds) = digitsToNat ds := by
  induction k with
  | zero => rfl
  | succ m ih =>
    rw [List.replicate_succ, List.cons_append, digitsToNat_cons,
      List.length_append, List.length_replicate]
    have h0 : digitVal '0' = 0 := rfl
    rw [h0, ih]
    ring

theorem digitsToNat_zfill (w : Nat) (ds : List Char) :
    digitsToNat (zfill w ds) = digitsToNat ds :=
  digitsToNat_replicate_zero _ ds

theorem zfill_digits {w : Nat} {ds : List Char} (h : ∀ c ∈ ds, c.isDigit = true) :
    ∀ c ∈ zfill w ds, c.isDigit = true := by
  intro c hc
  rcases List.mem_append.mp hc with h2 | h2
  · rcases List.eq_of_mem_replicate h2 with rfl
    rfl
  · exact h c h2

/-- The synthesised patient-id string determines the counter value. -/
theorem patIdStr_val (v : Nat) : digitsToNat (zfill 7 (decimalDigits v)) = v := by
  rw [digitsToNat_zfill, decimalDigits_val]

theorem patIdStr_inj {v1 v2 : Nat} (h : patIdStr v1 = patIdStr v2) : v1 = v2 := by
  unfold patIdStr at h
  have hdata : "PAT".toList ++ zfill 7 (decimalDigits v1) =
      "PAT".toList ++ zfill 7 (decimalDigits v2) := congrArg String.data h
  have hz := List.append_cancel_left hdata
  have := congrArg digitsToNat hz
  rwa [patIdStr_val, patIdStr_val] at this

/-- Division-with-remainder uniqueness used for digit-string injectivity. -/
theorem mul_add_inj {K a1 a2 x1 x2 : Nat} (hx1 : x1 < K) (hx2 : x2 < K)
    (h : a1 * K + x1 = a2 * K + x2) : a1 = a2 ∧ x1 = x2 := by
  have hK : 0 < K := by omega
  have h1 : (a1 * K + x1) / K = a1 := by
    rw [Nat.mul_comm a1 K, Nat.mul_add_div hK, Nat.div_eq_of_lt hx1]
    omega
  have h2 : (a2 * K + x2) / K = a2 := by
    rw [Nat.mul_comm a2 K, Nat.mul_add_div hK, Nat.div_eq_of_lt hx2]
    omega
  have ha : a1 = a2 := by rw [← h1, ← h2, h]
  have h4 := h
  rw [ha] at h4
  exact ⟨ha, by omega⟩

/-- Fixed-length digit strings are determined by their numeric value. -/
theorem digits_inj : ∀ (d1 d2 : List Char), d1.length = d2.length →
    (∀ c ∈ d1, c.isDigit = true) → (∀ c ∈ d2, c.isDigit = true) →
    digitsToNat d1 = digitsToNat d2 → d1 = d2
  | [], [], _, _, _, _ => rfl
  | [], _ :: _, hlen, _, _, _ => by simp at hlen
  | _ :: _, [], hlen, _, _, _ => by simp at hlen
  | c1 :: t1, c2 :: t2, hlen, h1, h2, hval => by
    have hl : t1.length = t2.length := by simpa using hlen
    rw [digitsToNat_cons, digitsToNat_cons, hl] at hval
    have b1 : digitsToNat t1 < 10 ^ t2.length := by
      rw [← hl]
      exact digitsToNat_lt fun c hc => h1 c (List.mem_cons_of_mem _ hc)
    have b2 : digitsToNat t2 < 10 ^ t2.length :=
      digitsToNat_lt fun c hc => h2 c (List.mem_cons_of_mem _ hc)
    rcases mul_add_inj b1 b2 hval with ⟨hdv, hrest⟩
    have hc : c1 = c2 :=
      digit_char_inj (h1 c1 (List.mem_cons_self ..)) (h2 c2 (List.mem_cons_self ..)) hdv
    have ht : t1 = t2 :=
      digits_inj t1 t2 hl (fun c hc => h1 c (List.mem_cons_of_mem _ hc))
        (fun c hc => h2 c (List.mem_cons_of_mem _ hc)) hrest
    rw [hc, ht]

/-! ## Claim C3 -/

/-- C3 counterexample: two distinct operational encounter natural keys that
the repository's own generators produce — synthetic encounter number 1000
(`ENC00001000`, from `generate_synthetic_data.py`) and the NIH-derived
encounter key of image `00000001_000.png` (`NIH_00000001_000_ENC`, from
`_load_batch_optimized`) — collapse to the same derived integer key 1000
under the digit-stripping mapping of `populate_warehouse.py`. -/
theorem C3_strip_collision_counterexample :
    synthEncounterId 999 ≠ nihEncounterId "00000001_000.png" ∧
    stripToInt (synthEncounterId 999) = 1000 ∧
    stripToInt (nihEncounterId "00000001_000.png") = 1000 := by
  refine ⟨?_, by decide, by decide⟩
  decide

/-- C3 amended: the digit-stripped integer key is injective on natural keys
of a single fixed-width scheme — keys sharing one prefix whose trailing
digit runs have equal length — so within each controlled generation scheme
(`PAT` + 7 digits, `FAC` + 6 digits, `ENC` + 8 digits, `DIAG` + 3 digits)
no two distinct keys collapse; collisions such as the counterexample can
only occur between different schemes of the same entity type. -/
theorem C3_strip_injective_fixed_scheme (pre d1 d2 : List Char)
    (h1 : ∀ c ∈ d1, c.isDigit = true) (h2 : ∀ c ∈ d2, c.isDigit = true)
    (hlen : d1.length = d2.length)
    (heq : stripToInt (String.mk (pre ++ d1)) = stripToInt (String.mk (pre ++ d2))) :
    String.mk (pre ++ d1) = String.mk (pre ++ d2) := by
  have hstrip : ∀ d : List Char, (∀ c ∈ d, c.isDigit = true) →
      stripToInt (String.mk (pre ++ d)) =
        digitsToNat (pre.filter Char.isDigit) * 10 ^ d.length +
          digitsToNat d := by
    intro d hd
    unfold stripToInt
    rw [toList_mk, List.filter_append]
    have : d.filter Char.isDigit = d := List.filter_eq_self.mpr hd
    rw [this, digitsToNat_append]
  rw [hstrip d1 h1, hstrip d2 h2, hlen] at heq
  have b1 : digitsToNat d1 < 10 ^ d2.length := by
    rw [← hlen]
    exact digitsToNat_lt h1
  have b2 : digitsToNat d2 < 10 ^ d2.length := digitsToNat_lt h2
  rcases mul_add_inj b1 b2 heq with ⟨_, hval⟩
  rw [digits_inj d1 d2 hlen h1 h2 hval]

/-- Witness for the amended C3 at a concrete scheme instance. -/
theorem C3_strip_injective_fixed_scheme_witness :
    String.mk ("ENC".toList ++ ['0', '0', '0', '1']) =
      String.mk ("ENC".toList ++ ['0', '0', '0', '1']) := by
  exact C3_strip_injective_fixed_scheme "ENC".toList ['0', '0', '0', '1']
    ['0', '0', '0', '1'] (by decide) (by decide) (by decide) (by decide)

/-! ## Lexicographic string comparison lemmas -/

theorem char_lt_iff_toNat {a b : Char} : a < b ↔ a.toNat < b.toNat :=
  ⟨fun h => h, fun h => h⟩

theorem char_eq_of_not_lt {a b : Char} (h1 : ¬a < b) (h2 : ¬b < a) : a = b := by
  have g1 : ¬a.toNat < b.toNat := fun h => h1 h
  have g2 : ¬b.toNat < a.toNat := fun h => h2 h
  have h3 : a.toNat = b.toNat := by omega
  exact Char.ext (UInt32.toNat.inj h3)

theorem listLt_append_left (p a b : List Char) :
    listLt (p ++ a) (p ++ b) = listLt a b := by
  induction p with
  | nil => rfl
  | cons c t ih =>
    have hstep : listLt (c :: (t ++ a)) (c :: (t ++ b)) =
        (if c < c then true else if c < c then false else listLt (t ++ a) (t ++ b)) := rfl
    rw [List.cons_append, List.cons_append, hstep, if_neg (lt_irrefl c),
      if_neg (lt_irrefl c), ih]

theorem mul_lt_helper {x y v1 v2 K : Nat} (hxy : x < y) (hv1 : v1 < K) :
    x * K + v1 < y * K + v2 := by
  calc x * K + v1 < x * K + K := by omega
    _ = (x + 1) * K := by ring
    _ ≤ y * K := Nat.mul_le_mul_right K (by omega)
    _ ≤ y * K + v2 := Nat.le_add_right ..

/-- On equal-length digit strings, the code-point lexicographic order is
the numeric order. -/
theorem listLt_digits : ∀ (d1 d2 : List Char), d1.length = d2.length →
    (∀ c ∈ d1, c.isDigit = true) → (∀ c ∈ d2, c.isDigit = true) →
    (listLt d1 d2 = true ↔ digitsToNat d1 < digitsToNat d2)
  | [], [], _, _, _ => by simp [listLt]
  | [], _ :: _, hlen, _, _ => by simp at hlen
  | _ :: _, [], hlen, _, _ => by simp at hlen
  | c1 :: t1, c2 :: t2, hlen, h1, h2 => by
    have hl : t1.length = t2.length := by simpa using hlen
    have hb1 := isDigit_bounds (h1 c1 (List.mem_cons_self ..))
    have hb2 := isDigit_bounds (h2 c2 (List.mem_cons_self ..))
    have ht1 : ∀ c ∈ t1, c.isDigit = true := fun c hc => h1 c (List.mem_cons_of_mem _ hc)
    have ht2 : ∀ c ∈ t2, c.isDigit = true := fun c hc => h2 c (List.mem_cons_of_mem _ hc)
    have bb1 : digitsToNat t1 < 10 ^ t2.length := hl ▸ digitsToNat_lt ht1
    have bb2 : digitsToNat t2 < 10 ^ t2.length := digitsToNat_lt ht2
    rw [digitsToNat_cons, digitsToNat_cons, hl]
    show (if c1 < c2 then true else if c2 < c1 then false else listLt t1 t2) = true ↔ _
    by_cases hc : c1 < c2
    · rw [if_pos hc]
      have hdv : digitVal c1 < digitVal c2 := by
        rw [char_lt_iff_toNat] at hc
        unfold digitVal
        omega
      simp only [true_iff]
      exact mul_lt_helper hdv bb1
    · rw [if_neg hc]
      by_cases hc2 : c2 < c1
      · rw [if_pos hc2]
        have hdv : digitVal c2 < digitVal c1 := by
          rw [char_lt_iff_toNat] at hc2
          unfold digitVal
          omega
        have : digitsToNat (c2 :: t2) < digitsToNat (c1 :: t1) := by
          rw [digitsToNat_cons, digitsToNat_cons, hl]
          exact mul_lt_helper hdv bb2
        rw [digitsToNat_cons, digitsToNat_cons, hl] at this
        constructor
        · intro hfalse
          cases hfalse
        · intro hlt
          omega
      · have hcc : c1 = c2 := char_eq_of_not_lt hc hc2
        subst hcc
        rw [if_neg hc2]
        rw [listLt_digits t1 t2 hl ht1 ht2]
        omega

/-- Stripping the `PAT` occurrences from an all-digit string is the
identity (digits never start a `PAT` match). -/
theorem replaceAllAux_digits {ds : List Char} (h : ∀ c ∈ ds, c.isDigit = true) :
    ∀ fuel, replaceAllAux "PAT".toList [] fuel ds = ds := by
  induction ds with
  | nil => intro fuel; cases fuel <;> rfl
  | cons c rest ih =>
    intro fuel
    cases fuel with
    | zero => rfl
    | succ f =>
      have hc := isDigit_bounds (h c (List.mem_cons_self ..))
      have hne : ("PAT".toList.isPrefixOf (c :: rest)) = false := by
        show (('P' == c) && _) = false
        have : ('P' == c) = false := by
          apply beq_eq_false_iff_ne.mpr
          intro hPc
          have : ('P' : Char).toNat = c.toNat := congrArg Char.toNat hPc
          simp at this
          omega
        rw [this, Bool.false_and]
      unfold replaceAllAux
      rw [if_neg (by rw [hne]; exact fun hcon => Bool.false_ne_true hcon.2)]
      rw [ih (fun x hx => h x (List.mem_cons_of_mem _ hx)) f]

/-- `m.replace("PAT", "")` on a scheme id returns the digit suffix. -/
theorem replaceAll_PAT {ds : List Char} (h : ∀ c ∈ ds, c.isDigit = true) :
    replaceAll "PAT".toList [] ("PAT".toList ++ ds) = ds := by
  have hpref : ("PAT".toList.isPrefixOf ('P' :: 'A' :: 'T' :: ds)) = true := by
    simp [List.isPrefixOf]
  unfold replaceAll
  show replaceAllAux _ _ (('P' :: 'A' :: 'T' :: ds).length) ('P' :: 'A' :: 'T' :: ds) = ds
  rw [List.length_cons, List.length_cons, List.length_cons]
  unfold replaceAllAux
  rw [if_pos (⟨by simp, hpref⟩ : "PAT".toList ≠ [] ∧ _)]
  show replaceAllAux _ _ (ds.length + 2) ds = ds
  exact replaceAllAux_digits h (ds.length + 2)

/-- The parsed numeric suffix of a scheme id. -/
theorem patVal_scheme {ds : List Char} (h : ∀ c ∈ ds, c.isDigit = true) :
    patVal (String.mk ("PAT".toList ++ ds)) = digitsToNat ds := by
  unfold patVal pyInt
  simp only [toList_mk]
  rw [replaceAll_PAT h]

/-- Lexicographic comparison of two scheme ids is numeric comparison of
their suffixes. -/
theorem listLt_scheme {s t : String} (hs : patScheme s) (ht : patScheme t) :
    (listLt s.toList t.toList = true ↔ patVal s < patVal t) := by
  obtain ⟨ds, rfl, hlds, hdds⟩ := hs
  obtain ⟨dt, rfl, hldt, hddt⟩ := ht
  simp only [toList_mk]
  rw [listLt_append_left, patVal_scheme hdds, patVal_scheme hddt]
  exact listLt_digits ds dt (by omega) hdds hddt

/-- The fold computing SQL `MAX` over scheme ids returns a scheme id whose
suffix dominates every input suffix. -/
theorem sqlMax_fold_scheme :
    ∀ (l : List String), (∀ s ∈ l, patScheme s) →
      ∀ m0, patScheme m0 →
        ∃ m, l.foldl sqlMaxStep (some m0) = some m ∧ patScheme m ∧
          patVal m0 ≤ patVal m ∧ ∀ s ∈ l, patVal s ≤ patVal m
  | [], _, m0, hm0 => ⟨m0, rfl, hm0, Nat.le_refl _, by simp⟩
  | s :: t, hl, m0, hm0 => by
    have hs : patScheme s := hl s (List.mem_cons_self ..)
    have ht : ∀ x ∈ t, patScheme x := fun x hx => hl x (List.mem_cons_of_mem _ hx)
    have hstep : sqlMaxStep (some m0) s =
        (if listLt m0.toList s.toList then some s else some m0) := rfl
    show ∃ m, t.foldl sqlMaxStep (sqlMaxStep (some m0) s) = some m ∧ _
    rw [hstep]
    by_cases hlt : listLt m0.toList s.toList = true
    · rw [if_pos hlt]
      have hv : patVal m0 < patVal s := (listLt_scheme hm0 hs).mp hlt
      rcases sqlMax_fold_scheme t ht s hs with ⟨m, hfold, hm, hge, hall⟩
      exact ⟨m, hfold, hm, Nat.le_trans (Nat.le_of_lt hv) hge,
        fun x hx => by
          rcases List.mem_cons.mp hx with rfl | hxt
          · exact hge
          · exact hall x hxt⟩
    · rw [if_neg hlt]
      have hv : patVal s ≤ patVal m0 := by
        have h2 := (listLt_scheme hm0 hs).not.mp hlt
        omega
      rcases sqlMax_fold_scheme t ht m0 hm0 with ⟨m, hfold, hm, hge, hall⟩
      exact ⟨m, hfold, hm, hge,
        fun x hx => by
          rcases List.mem_cons.mp hx with rfl | hxt
          · exact Nat.le_trans hv hge
          · exact hall x hxt⟩

/-- SQL `MAX` is `NULL` only on an empty input. -/
theorem sqlMaxStr_none : ∀ {l : List String}, sqlMaxStr l = none → l = [] := by
  intro l
  cases l with
  | nil => intro _; rfl
  | cons s t =>
    intro h
    exfalso
    have : ∀ (u : List String) (m0 : String), ∃ m, u.foldl sqlMaxStep (some m0) = some m := by
      intro u
      induction u with
      | nil => exact fun m0 => ⟨m0, rfl⟩
      | cons a r ih =>
        intro m0
        show ∃ m, r.foldl sqlMaxStep (sqlMaxStep (some m0) a) = some m
        have hstep : sqlMaxStep (some m0) a =
            (if listLt m0.toList a.toList then some a else some m0) := rfl
        rw [hstep]
        split <;> exact ih _
    rcases this t s with ⟨m, hm⟩
    rw [show sqlMaxStr (s :: t) = t.foldl sqlMaxStep (some s) from rfl, hm] at h
    cases h

/-! ## Claim C9 -/

theorem bulkStep_matched {existing : List (String × String)} {now : Nat}
    {st : List Patient × List (String × String) × Nat} {t : String × Nat × String}
    {pid0 : String} (h : dictGet existing (patientEmail t.1) = some pid0) :
    bulkStep existing now st t = (st.1, st.2.1 ++ [(t.1, pid0)], st.2.2) := by
  unfold bulkStep
  dsimp only
  rw [h]

theorem bulkStep_unmatched {existing : List (String × String)} {now : Nat}
    {st : List Patient × List (String × String) × Nat} {t : String × Nat × String}
    (h : dictGet existing (patientEmail t.1) = none) :
    bulkStep existing now st t =
      (st.1 ++ [{ patient_id := patIdStr (st.2.2 + 1),
                  date_of_birth := now - t.2.1 * 365,
                  gender := genderMap t.2.2,
                  contact_email := patientEmail t.1 }],
       st.2.1 ++ [(t.1, patIdStr (st.2.2 + 1))], st.2.2 + 1) := by
  unfold bulkStep
  dsimp only
  rw [h]

/-- Invariant of the `unique_patients` loop: the counter equals the base
value plus the number of patients created so far, and the `j`-th created
patient carries the id synthesised from counter value base + j + 1. -/
theorem bulkStep_fold_ids (existing : List (String × String)) (now L0 : Nat) :
    ∀ (l : List (String × Nat × String)) (st : List Patient × List (String × String) × Nat),
      st.2.2 = L0 + st.1.length →
      (∀ j (hj : j < st.1.length), (st.1[j]).patient_id = patIdStr (L0 + j + 1)) →
      (l.foldl (bulkStep existing now) st).2.2 =
          L0 + (l.foldl (bulkStep existing now) st).1.length ∧
        ∀ j (hj : j < (l.foldl (bulkStep existing now) st).1.length),
          ((l.foldl (bulkStep existing now) st).1[j]).patient_id = patIdStr (L0 + j + 1)
  | [], st, hcnt, hids => ⟨hcnt, hids⟩
  | t :: rest, st, hcnt, hids => by
    rw [List.foldl_cons]
    cases hd : dictGet existing (patientEmail t.1) with
    | some pid0 =>
      rw [bulkStep_matched hd]
      exact bulkStep_fold_ids existing now L0 rest _ hcnt hids
    | none =>
      rw [bulkStep_unmatched hd]
      refine bulkStep_fold_ids existing now L0 rest _ ?_ ?_
      · simp only [List.length_append, List.length_singleton]
        omega
      · intro j hj
        simp only [List.length_append, List.length_singleton] at hj
        by_cases hjl : j < st.1.length
        · rw [List.getElem_append_left hjl]
          exact hids j hjl
        · have hje : j = st.1.length := by omega
          subst hje
          rw [List.getElem_concat_length]
          rw [hcnt]
          rfl

/-- Every stored id matched by `LIKE 'PAT%'` parses to a suffix value at
most the parsed lexicographic maximum. -/
theorem lastId_dominates {s : Store}
    (hscheme : ∀ p ∈ s.patients, likePAT p.patient_id = true → patScheme p.patient_id)
    {m : String}
    (hmax : sqlMaxStr ((s.patients.map (·.patient_id)).filter likePAT) = some m) :
    ∀ p ∈ s.patients, likePAT p.patient_id = true → patVal p.patient_id ≤ patVal m := by
  have hflt : ∀ x ∈ (s.patients.map (·.patient_id)).filter likePAT, patScheme x := by
    intro x hx
    have h2 := List.mem_filter.mp hx
    rcases List.mem_map.mp h2.1 with ⟨q, hq, rfl⟩
    exact hscheme q hq h2.2
  intro p hp hlike
  have hmem : p.patient_id ∈ (s.patients.map (·.patient_id)).filter likePAT :=
    List.mem_filter.mpr ⟨List.mem_map_of_mem _ hp, hlike⟩
  cases hfl : (s.patients.map (·.patient_id)).filter likePAT with
  | nil =>
    rw [hfl] at hmem
    exact (List.not_mem_nil _ hmem).elim
  | cons x rest =>
    rw [hfl] at hmem hmax hflt
    have hx : patScheme x := hflt x (List.mem_cons_self ..)
    have hrest : ∀ y ∈ rest, patScheme y := fun y hy => hflt y (List.mem_cons_of_mem _ hy)
    rcases sqlMax_fold_scheme rest hrest x hx with ⟨m2, hfold, _, hgex, hall⟩
    have hm2 : m2 = m := by
      have : sqlMaxStr (x :: rest) = rest.foldl sqlMaxStep (some x) := rfl
      rw [this, hfold] at hmax
      exact Option.some.inj hmax
    subst hm2
    rcases List.mem_cons.mp hmem with heq | hmem2
    · rw [heq]
      exact hgex
    · exact hall _ hmem2

/-- `patIdStr` always matches `LIKE 'PAT%'`. -/
theorem likePAT_patIdStr (v : Nat) : likePAT (patIdStr v) = true := by
  unfold likePAT patIdStr
  rw [toList_mk]
  apply List.isPrefixOf_iff_prefix.mpr
  exact List.prefix_append ..

/-- A synthesised id with counter value above a scheme id's suffix differs
from it. -/
theorem patIdStr_ne_scheme {id : String} (hsch : patScheme id) {v : Nat}
    (hgt : patVal id < v) : patIdStr v ≠ id := by
  obtain ⟨ds, rfl, hlen, hds⟩ := hsch
  intro heq
  have hdata : "PAT".toList ++ zfill 7 (decimalDigits v) = "PAT".toList ++ ds :=
    congrArg String.data heq
  have hz := List.append_cancel_left hdata
  have hv : digitsToNat ds = v := by
    rw [← hz, patIdStr_val]
  rw [patVal_scheme hds, hv] at hgt
  omega

/-- C9: within-batch id-synthesis collision freedom.  `_bulk_create_patients`
issues the `MAX(patient_id)` query once and then increments an in-memory
counter, so — provided every stored `PAT`-prefixed id follows the controlled
`PAT` + 7-digit scheme — all newly synthesised patient ids of a batch are
pairwise distinct and distinct from every patient id already in the store. -/
theorem C9_batch_id_synthesis_collision_free (s : Store) (now : Nat)
    (batch : List TRecord)
    (hscheme : ∀ p ∈ s.patients, likePAT p.patient_id = true → patScheme p.patient_id) :
    (∀ i j
      (hi : i < ((bulkCreatePatients s now batch).store.patients.drop
        s.patients.length).length)
      (hj : j < ((bulkCreatePatients s now batch).store.patients.drop
        s.patients.length).length),
      i ≠ j →
      (((bulkCreatePatients s now batch).store.patients.drop
        s.patients.length)[i]).patient_id ≠
      (((bulkCreatePatients s now batch).store.patients.drop
        s.patients.length)[j]).patient_id) ∧
    (∀ q ∈ (bulkCreatePatients s now batch).store.patients.drop s.patients.length,
      ∀ p ∈ s.patients, q.patient_id ≠ p.patient_id) := by
  unfold bulkCreatePatients
  dsimp only
  split
  · constructor
    · intro i j hi hj
      rw [List.drop_length] at hi
      exact absurd hi (by simp)
    · intro q hq
      rw [List.drop_length] at hq
      exact (List.not_mem_nil q hq).elim
  · dsimp only
    simp only [List.drop_left]
    set L0 := (match sqlMaxStr ((s.patients.map (·.patient_id)).filter likePAT) with
      | some m => pyInt (String.mk (replaceAll "PAT".toList [] m.toList))
      | none => 5000) with hL0
    have hdom : ∀ p ∈ s.patients, likePAT p.patient_id = true →
        patVal p.patient_id ≤ L0 := by
      cases hmax : sqlMaxStr ((s.patients.map (·.patient_id)).filter likePAT) with
      | none =>
        intro p hp hlike
        have hmem : p.patient_id ∈ (s.patients.map (·.patient_id)).filter likePAT :=
          List.mem_filter.mpr ⟨List.mem_map_of_mem _ hp, hlike⟩
        rw [sqlMaxStr_none hmax] at hmem
        exact (List.not_mem_nil _ hmem).elim
      | some m =>
        have hLm : L0 = patVal m := by rw [hL0, hmax]; rfl
        rw [hLm]
        exact lastId_dominates hscheme hmax
    have hinv := bulkStep_fold_ids
      ((s.patients.filter fun p => decide (p.contact_email ∈
        (dedupFirst (batch.map fun r =>
          (r.src.patientID, r.src.patientAge, r.src.patientGender))).map
            fun t => patientEmail t.1)).map fun p => (p.contact_email, p.patient_id))
      now L0
      (dedupFirst (batch.map fun r =>
        (r.src.patientID, r.src.patientAge, r.src.patientGender)))
      ([], [], L0) rfl (by intro j hj; exact absurd hj (by simp))
    constructor
    · intro i j hi hj hne
      rw [hinv.2 i hi, hinv.2 j hj]
      intro heq
      have h2 := patIdStr_inj heq
      omega
    · intro q hq p hp
      rcases List.mem_iff_getElem.mp hq with ⟨j, hj, hjq⟩
      rw [← hjq, hinv.2 j hj]
      by_cases hlike : likePAT p.patient_id = true
      · exact patIdStr_ne_scheme (hscheme p hp hlike)
          (Nat.lt_of_le_of_lt (hdom p hp hlike) (by omega))
      · intro heq
        apply hlike
        rw [← heq]
        exact likePAT_patIdStr _

/-- Witness for C9: a concrete two-record batch loaded against a store of two
scheme-conforming patients yields pairwise-distinct fresh ids that also avoid
every stored id. -/
theorem C9_batch_id_synthesis_collision_free_witness :
    (∀ i j
      (hi : i < ((bulkCreatePatients c9Store 20000
        [mkTRecord recAtelectasis 0, mkTRecord recEffusion 0]).store.patients.drop
        c9Store.patients.length).length)
      (hj : j < ((bulkCreatePatients c9Store 20000
        [mkTRecord recAtelectasis 0, mkTRecord recEffusion 0]).store.patients.drop
        c9Store.patients.length).length),
      i ≠ j →
      (((bulkCreatePatients c9Store 20000
        [mkTRecord recAtelectasis 0, mkTRecord recEffusion 0]).store.patients.drop
        c9Store.patients.length)[i]).patient_id ≠
      (((bulkCreatePatients c9Store 20000
        [mkTRecord recAtelectasis 0, mkTRecord recEffusion 0]).store.patients.drop
        c9Store.patients.length)[j]).patient_id) ∧
    (∀ q ∈ (bulkCreatePatients c9Store 20000
        [mkTRecord recAtelectasis 0, mkTRecord recEffusion 0]).store.patients.drop
        c9Store.patients.length,
      ∀ p ∈ c9Store.patients, q.patient_id ≠ p.patient_id) :=
  C9_batch_id_synthesis_collision_free c9Store 20000
    [mkTRecord recAtelectasis 0, mkTRecord recEffusion 0]
    (by
      intro p hp _
      have h2 : p = ⟨"PAT0000005", 1000, "M", "a@b"⟩ ∨
          p = ⟨"PAT0000002", 2000, "F", "c@d"⟩ := by
        simpa [c9Store] using hp
      rcases h2 with rfl | rfl
      · exact ⟨['0','0','0','0','0','0','5'], by decide, rfl, by decide⟩
      · exact ⟨['0','0','0','0','0','0','2'], by decide, rfl, by decide⟩)

/-! ## Claim C2 -/

theorem dedupFirstAux_nodup [DecidableEq α] :
    ∀ (l seen : List α), (dedupFirstAux l seen).Nodup
  | [], _ => List.nodup_nil
  | x :: rest, seen => by
    by_cases hx : x ∈ seen
    · rw [dedupFirstAux, if_pos hx]
      exact dedupFirstAux_nodup rest seen
    · rw [dedupFirstAux, if_neg hx]
      refine List.nodup_cons.mpr ⟨?_, dedupFirstAux_nodup rest (x :: seen)⟩
      intro hmem
      exact (mem_dedupFirstAux.mp hmem).2 (List.mem_cons_self x seen)

/-- Keep-first deduplication yields a duplicate-free list. -/
theorem dedupFirst_nodup [DecidableEq α] (l : List α) : (dedupFirst l).Nodup :=
  dedupFirstAux_nodup l []

/-- A dict lookup misses exactly when no pair carries the key. -/
theorem dictGet_none_iff {m : List (String × String)} {k : String} :
    dictGet m k = none ↔ ∀ kv ∈ m, kv.1 ≠ k := by
  simp [dictGet, List.getLast?_eq_none_iff, List.filter_eq_nil_iff]

/-- A successful dict lookup returns a value stored under the key. -/
theorem dictGet_some_mem {m : List (String × String)} {k v : String}
    (h : dictGet m k = some v) : (k, v) ∈ m := by
  unfold dictGet at h
  cases hlast : (m.filter fun kv => decide (kv.1 = k)).getLast? with
  | none => rw [hlast] at h; cases h
  | some kv =>
    rw [hlast] at h
    have hkv := List.mem_of_mem_getLast? hlast
    have h2 := List.mem_filter.mp hkv
    have hk : kv.1 = k := by simpa using h2.2
    have hv : kv.2 = v := Option.some.inj h
    have hpair : kv = (k, v) := by
      rw [← hk, ← hv]
    rw [← hpair]
    exact h2.1

/-- Each iteration of the `unique_patients` loop creates at most one
patient row. -/
theorem bulkFold_len_le (e : List (String × String)) (now : Nat) :
    ∀ (l : List (String × Nat × String)) (st : List Patient × List (String × String) × Nat),
      (l.foldl (bulkStep e now) st).1.length ≤ st.1.length + l.length
  | [], st => Nat.le_refl _
  | t :: rest, st => by
    rw [List.foldl_cons]
    cases hd : dictGet e (patientEmail t.1) with
    | some pid0 =>
      rw [bulkStep_matched hd]
      refine Nat.le_trans (bulkFold_len_le e now rest _) ?_
      simp only [List.length_cons, List.length_nil]
      omega
    | none =>
      rw [bulkStep_unmatched hd]
      refine Nat.le_trans (bulkFold_len_le e now rest _) ?_
      simp only [List.length_append, List.length_singleton, List.length_cons,
        List.length_nil]
      omega

/-- Rows created earlier in the loop survive to the end. -/
theorem bulkFold_mem_mono (e : List (String × String)) (now : Nat) :
    ∀ (l : List (String × Nat × String)) (st : List Patient × List (String × String) × Nat)
      (q : Patient), q ∈ st.1 → q ∈ (l.foldl (bulkStep e now) st).1
  | [], _, _, hq => hq
  | t :: rest, st, q, hq => by
    rw [List.foldl_cons]
    cases hd : dictGet e (patientEmail t.1) with
    | some pid0 =>
      rw [bulkStep_matched hd]
      exact bulkFold_mem_mono e now rest _ q hq
    | none =>
      rw [bulkStep_unmatched hd]
      exact bulkFold_mem_mono e now rest _ q (List.mem_append_left _ hq)

/-- Every row created by the loop stems from a triple whose correlation
token missed the `existing` lookup, and carries that token as its email. -/
theorem bulkFold_new_mem (e : List (String × String)) (now : Nat) :
    ∀ (l : List (String × Nat × String)) (st : List Patient × List (String × String) × Nat)
      (q : Patient), q ∈ (l.foldl (bulkStep e now) st).1 →
      q ∈ st.1 ∨ ∃ t ∈ l, dictGet e (patientEmail t.1) = none ∧
        q.contact_email = patientEmail t.1
  | [], _, _, hq => Or.inl hq
  | t :: rest, st, q, hq => by
    rw [List.foldl_cons] at hq
    cases hd : dictGet e (patientEmail t.1) with
    | some pid0 =>
      rw [bulkStep_matched hd] at hq
      rcases bulkFold_new_mem e now rest _ q hq with h | ⟨u, hu, h1, h2⟩
      · exact Or.inl h
      · exact Or.inr ⟨u, List.mem_cons_of_mem _ hu, h1, h2⟩
    | none =>
      rw [bulkStep_unmatched hd] at hq
      rcases bulkFold_new_mem e now rest _ q hq with h | ⟨u, hu, h1, h2⟩
      · rcases List.mem_append.mp h with h | h
        · exact Or.inl h
        · rcases List.mem_singleton.mp h with rfl
          exact Or.inr ⟨t, List.mem_cons_self t rest, hd, rfl⟩
      · exact Or.inr ⟨u, List.mem_cons_of_mem _ hu, h1, h2⟩

/-- Every `patient_map` entry either reuses an id found by the `existing`
lookup or points at a row created in this very loop, carrying the entry's
correlation token as its email. -/
theorem bulkFold_pmap_mem (e : List (String × String)) (now : Nat) :
    ∀ (l : List (String × Nat × String)) (st : List Patient × List (String × String) × Nat)
      (kv : String × String), kv ∈ (l.foldl (bulkStep e now) st).2.1 →
      kv ∈ st.2.1 ∨ dictGet e (patientEmail kv.1) = some kv.2 ∨
        ∃ q ∈ (l.foldl (bulkStep e now) st).1,
          q.patient_id = kv.2 ∧ q.contact_email = patientEmail kv.1
  | [], _, _, hkv => Or.inl hkv
  | t :: rest, st, kv, hkv => by
    rw [List.foldl_cons] at hkv
    rw [List.foldl_cons]
    cases hd : dictGet e (patientEmail t.1) with
    | some pid0 =>
      rw [bulkStep_matched hd] at hkv
      rw [bulkStep_matched hd]
      rcases bulkFold_pmap_mem e now rest _ kv hkv with h | h | h
      · rcases List.mem_append.mp h with h | h
        · exact Or.inl h
        · rcases List.mem_singleton.mp h with rfl
          exact Or.inr (Or.inl hd)
      · exact Or.inr (Or.inl h)
      · exact Or.inr (Or.inr h)
    | none =>
      rw [bulkStep_unmatched hd] at hkv
      rw [bulkStep_unmatched hd]
      rcases bulkFold_pmap_mem e now rest _ kv hkv with h | h | h
      · rcases List.mem_append.mp h with h | h
        · exact Or.inl h
        · rcases List.mem_singleton.mp h with rfl
          refine Or.inr (Or.inr ⟨Patient.mk (patIdStr (st.2.2 + 1))
            (now - t.2.1 * 365) (genderMap t.2.2) (patientEmail t.1), ?_, rfl, rfl⟩)
          exact bulkFold_mem_mono e now rest _ _
            (List.mem_append_right _ (List.mem_singleton.mpr rfl))
      · exact Or.inr (Or.inl h)
      · exact Or.inr (Or.inr h)

/-- When every external id of a batch appears with a single age and gender,
there are no more distinct (id, age, gender) triples than distinct ids. -/
theorem uniques_id_le (batch : List TRecord)
    (hcon : ∀ r ∈ batch, ∀ q ∈ batch, r.src.patientID = q.src.patientID →
      r.src.patientAge = q.src.patientAge ∧ r.src.patientGender = q.src.patientGender) :
    (dedupFirst (batch.map fun r =>
      (r.src.patientID, r.src.patientAge, r.src.patientGender))).length ≤
    (dedupFirst (batch.map fun r => r.src.patientID)).length := by
  have hinj : ∀ t₁ ∈ dedupFirst (batch.map fun r =>
      (r.src.patientID, r.src.patientAge, r.src.patientGender)),
      ∀ t₂ ∈ dedupFirst (batch.map fun r =>
      (r.src.patientID, r.src.patientAge, r.src.patientGender)),
      t₁.1 = t₂.1 → t₁ = t₂ := by
    intro t₁ h₁ t₂ h₂ he
    rcases List.mem_map.mp (mem_dedupFirst.mp h₁) with ⟨r₁, hr₁, hrt₁⟩
    rcases List.mem_map.mp (mem_dedupFirst.mp h₂) with ⟨r₂, hr₂, hrt₂⟩
    subst hrt₁
    subst hrt₂
    have he2 : r₁.src.patientID = r₂.src.patientID := he
    have h3 := hcon r₁ hr₁ r₂ hr₂ he2
    show (r₁.src.patientID, r₁.src.patientAge, r₁.src.patientGender) =
      (r₂.src.patientID, r₂.src.patientAge, r₂.src.patientGender)
    rw [he2, h3.1, h3.2]
  have hnd : ((dedupFirst (batch.map fun r =>
      (r.src.patientID, r.src.patientAge, r.src.patientGender))).map (·.1)).Nodup :=
    List.Nodup.map_on hinj (dedupFirst_nodup _)
  have hsub : ((dedupFirst (batch.map fun r =>
      (r.src.patientID, r.src.patientAge, r.src.patientGender))).map (·.1)) ⊆
      dedupFirst (batch.map fun r => r.src.patientID) := by
    intro x hx
    rcases List.mem_map.mp hx with ⟨t, ht, rfl⟩
    rcases List.mem_map.mp (mem_dedupFirst.mp ht) with ⟨r, hr, rfl⟩
    exact mem_dedupFirst.mpr (List.mem_map_of_mem _ hr)
  have hle := (List.subperm_of_subset hnd hsub).length_le
  simpa using hle

/-- Rows added by `_bulk_create_patients` never carry an email already
present in the patients table: existing correlation tokens are reused, not
duplicated. -/
theorem bulkNew_email_fresh (s : Store) (now : Nat) (batch : List TRecord) :
    ∀ q ∈ (bulkCreatePatients s now batch).store.patients.drop s.patients.length,
      ∀ p ∈ s.patients, q.contact_email ≠ p.contact_email := by
  unfold bulkCreatePatients
  dsimp only
  split
  · intro q hq
    rw [List.drop_length] at hq
    exact absurd hq (List.not_mem_nil q)
  · dsimp only
    simp only [List.drop_left]
    intro q hq p hp heq
    rcases bulkFold_new_mem _ now _ _ q hq with h | ⟨t, ht, hnone, hqe⟩
    · exact absurd h (List.not_mem_nil q)
    · have hpe : p.contact_email = patientEmail t.1 := by
        rw [← heq]
        exact hqe
      have hpin : p ∈ s.patients.filter (fun p => decide (p.contact_email ∈
          (dedupFirst (batch.map fun r =>
            (r.src.patientID, r.src.patientAge, r.src.patientGender))).map
              fun t => patientEmail t.1)) :=
        List.mem_filter.mpr ⟨hp, decide_eq_true
          (by rw [hpe]; exact List.mem_map_of_mem _ ht)⟩
      have hin := List.mem_map_of_mem (fun p => (p.contact_email, p.patient_id)) hpin
      exact dictGet_none_iff.mp hnone (p.contact_email, p.patient_id) hin hpe

/-- C2 is wrong as stated: `_bulk_create_patients` deduplicates by the full
(PatientID, Age, Gender) triple, so a single distinct unmatched external id
recorded with two different ages yields two new patient rows, which moreover
share the same correlation email. -/
theorem C2_identity_resolution_counterexample :
    dedupFirst ([mkTRecord recDupA 0, mkTRecord recDupB 0].map
      fun r => r.src.patientID) = ["7"] ∧
    freshStore.patients = [] ∧
    (bulkCreatePatients freshStore 20000
      [mkTRecord recDupA 0, mkTRecord recDupB 0]).created = 2 ∧
    ((bulkCreatePatients freshStore 20000
      [mkTRecord recDupA 0, mkTRecord recDupB 0]).store.patients.map
        (·.contact_email)) =
      ["nih_patient_7@external.com", "nih_patient_7@external.com"] :=
  ⟨rfl, rfl, rfl, rfl⟩

/-- C2 (amended): per batch, `_bulk_create_patients` creates at most one new
patient row per distinct (external id, age, gender) triple — hence, when each
external id of the batch carries a single age and gender, at most one per
distinct external id; rows it adds never duplicate a correlation email already
stored; every `patient_map` entry resolves an external id to a stored or
newly created row carrying exactly that id's correlation token; and when the
stored emails are unique, an external id whose token already exists resolves
to the existing operational patient id, so resolution is stable across
repeated invocations. -/
theorem C2_identity_resolution_per_triple (s : Store) (now : Nat) (batch : List TRecord)
    (hcon : ∀ r ∈ batch, ∀ q ∈ batch, r.src.patientID = q.src.patientID →
      r.src.patientAge = q.src.patientAge ∧ r.src.patientGender = q.src.patientGender)
    (hEU : emailUnique s) :
    (bulkCreatePatients s now batch).created ≤
      (dedupFirst (batch.map fun r => r.src.patientID)).length ∧
    (∀ q ∈ (bulkCreatePatients s now batch).store.patients.drop s.patients.length,
      ∀ p ∈ s.patients, q.contact_email ≠ p.contact_email) ∧
    (∀ ext pid, (ext, pid) ∈ (bulkCreatePatients s now batch).pmap →
      (∃ p ∈ s.patients, p.contact_email = patientEmail ext ∧ p.patient_id = pid) ∨
      ∃ q ∈ (bulkCreatePatients s now batch).store.patients.drop s.patients.length,
        q.contact_email = patientEmail ext ∧ q.patient_id = pid) ∧
    (∀ ext pid, (ext, pid) ∈ (bulkCreatePatients s now batch).pmap →
      ∀ p ∈ s.patients, p.contact_email = patientEmail ext → pid = p.patient_id) := by
  have hfresh := bulkNew_email_fresh s now batch
  refine ⟨?_, hfresh, ?_, ?_⟩
  · unfold bulkCreatePatients
    dsimp only
    split
    · exact Nat.zero_le _
    · dsimp only
      refine Nat.le_trans (bulkFold_len_le _ now _ _) ?_
      simpa using uniques_id_le batch hcon
  · intro ext pid h
    unfold bulkCreatePatients at h ⊢
    dsimp only at h ⊢
    by_cases hc : (dedupFirst (batch.map fun r =>
        (r.src.patientID, r.src.patientAge, r.src.patientGender))).isEmpty = true
    · rw [if_pos hc] at h
      exact absurd h (List.not_mem_nil _)
    · rw [if_neg hc] at h
      dsimp only at h
      simp only [if_neg hc]
      simp only [List.drop_left]
      rcases bulkFold_pmap_mem _ now _ _ (ext, pid) h with h | h | h
      · exact absurd h (List.not_mem_nil _)
      · have hmem := dictGet_some_mem h
        rcases List.mem_map.mp hmem with ⟨p, hpfil, hpe⟩
        left
        exact ⟨p, (List.mem_filter.mp hpfil).1,
          congrArg Prod.fst hpe, congrArg Prod.snd hpe⟩
      · rcases h with ⟨q, hq, hid, hqe⟩
        right
        exact ⟨q, hq, hqe, hid⟩
  · intro ext pid h p hp hpe
    unfold bulkCreatePatients at h
    dsimp only at h
    by_cases hc : (dedupFirst (batch.map fun r =>
        (r.src.patientID, r.src.patientAge, r.src.patientGender))).isEmpty = true
    · rw [if_pos hc] at h
      exact absurd h (List.not_mem_nil _)
    · rw [if_neg hc] at h
      dsimp only at h
      rcases bulkFold_pmap_mem _ now _ _ (ext, pid) h with h | h | h
      · exact absurd h (List.not_mem_nil _)
      · have hmem := dictGet_some_mem h
        rcases List.mem_map.mp hmem with ⟨p2, hp2fil, hp2e⟩
        have hp2 := (List.mem_filter.mp hp2fil).1
        have he2 : p2.contact_email = patientEmail ext := congrArg Prod.fst hp2e
        have hpid : p2.patient_id = pid := congrArg Prod.snd hp2e
        by_cases hpp : p2 = p
        · rw [← hpid, hpp]
        · exfalso
          have hsym : Symmetric fun p q : Patient =>
              p.contact_email ≠ q.contact_email := fun _ _ hne he => hne he.symm
          exact List.Pairwise.forall hsym hEU hp2 hp hpp (he2.trans hpe.symm)
      · rcases h with ⟨q, hq, hid, hqe⟩
        have hq2 : q ∈ (bulkCreatePatients s now batch).store.patients.drop
            s.patients.length := by
          unfold bulkCreatePatients
          dsimp only
          rw [if_neg hc]
          dsimp only
          simp only [List.drop_left]
          exact hq
        exact absurd (hqe.trans hpe.symm) (hfresh q hq2 p hp)

/-- Witness for C2 (amended): a concrete consistent two-record batch against
a store with unique emails. -/
theorem C2_identity_resolution_per_triple_witness :
    (bulkCreatePatients c9Store 20000
        [mkTRecord recAtelectasis 0, mkTRecord recEffusion 0]).created ≤
      (dedupFirst ([mkTRecord recAtelectasis 0, mkTRecord recEffusion 0].map
        fun r => r.src.patientID)).length ∧
    (∀ q ∈ (bulkCreatePatients c9Store 20000
        [mkTRecord recAtelectasis 0, mkTRecord recEffusion 0]).store.patients.drop
        c9Store.patients.length,
      ∀ p ∈ c9Store.patients, q.contact_email ≠ p.contact_email) ∧
    (∀ ext pid, (ext, pid) ∈ (bulkCreatePatients c9Store 20000
        [mkTRecord recAtelectasis 0, mkTRecord recEffusion 0]).pmap →
      (∃ p ∈ c9Store.patients, p.contact_email = patientEmail ext ∧
        p.patient_id = pid) ∨
      ∃ q ∈ (bulkCreatePatients c9Store 20000
        [mkTRecord recAtelectasis 0, mkTRecord recEffusion 0]).store.patients.drop
        c9Store.patients.length,
        q.contact_email = patientEmail ext ∧ q.patient_id = pid) ∧
    (∀ ext pid, (ext, pid) ∈ (bulkCreatePatients c9Store 20000
        [mkTRecord recAtelectasis 0, mkTRecord recEffusion 0]).pmap →
      ∀ p ∈ c9Store.patients, p.contact_email = patientEmail ext →
        pid = p.patient_id) :=
  C2_identity_resolution_per_triple c9Store 20000
    [mkTRecord recAtelectasis 0, mkTRecord recEffusion 0]
    (by decide) (by simp [emailUnique, c9Store])

/-! ## Claim C7 -/

theorem insertEncounter_encDiag (s : Store) (e : Encounter) :
    (insertEncounter s e).encounterDiagnoses = s.encounterDiagnoses := by
  unfold insertEncounter
  split <;> rfl

theorem insertProcedure_encDiag (s : Store) (a b c d : String) :
    (insertProcedure s a b c d).encounterDiagnoses = s.encounterDiagnoses := by
  unfold insertProcedure
  dsimp only
  split <;> rfl

theorem bulkCreatePatients_encDiag (s : Store) (now : Nat) (batch : List TRecord) :
    (bulkCreatePatients s now batch).store.encounterDiagnoses = s.encounterDiagnoses := by
  unfold bulkCreatePatients
  dsimp only
  split <;> rfl

theorem foldl_insertEncounter_encDiag :
    ∀ (l : List Encounter) (s : Store),
      (l.foldl insertEncounter s).encounterDiagnoses = s.encounterDiagnoses
  | [], _ => rfl
  | e :: t, s => by
    rw [List.foldl_cons, foldl_insertEncounter_encDiag t _, insertEncounter_encDiag]

theorem foldl_insertProcedure_encDiag :
    ∀ (l : List TRecord) (s : Store),
      (l.foldl (fun s r => insertProcedure s (nihEncounterId r.src.imageIndex) r.procCode
        r.modality r.src.viewPosition) s).encounterDiagnoses = s.encounterDiagnoses
  | [], _ => rfl
  | r :: t, s => by
    rw [List.foldl_cons, foldl_insertProcedure_encDiag t _, insertProcedure_encDiag]

theorem foldl_insertReport_encDiag :
    ∀ (l : List TRecord) (s : Store),
      (l.foldl (fun s r => insertReport s (nihEncounterId r.src.imageIndex) r.src.reportType
        r.src.reportStatus) s).encounterDiagnoses = s.encounterDiagnoses
  | [], _ => rfl
  | r :: t, s => by
    rw [List.foldl_cons, foldl_insertReport_encDiag t _]
    rfl

/-- The conflict-guarded diagnosis-insert loop appends a sublist of its
input row list. -/
theorem foldl_insertEncDiag_sublist :
    ∀ (l : List EncounterDiagnosis) (s : Store),
      ∃ sub, (l.foldl insertEncDiag s).encounterDiagnoses =
        s.encounterDiagnoses ++ sub ∧ sub.Sublist l
  | [], s => ⟨[], (List.append_nil _).symm, List.nil_sublist _⟩
  | row :: t, s => by
    rw [List.foldl_cons]
    by_cases hc : s.encounterDiagnoses.any (fun x =>
        decide (x.encounter_id = row.encounter_id) &&
        decide (x.diagnosis_id = row.diagnosis_id)) = true
    · have hstep : insertEncDiag s row = s := by
        unfold insertEncDiag
        rw [if_pos hc]
      rw [hstep]
      rcases foldl_insertEncDiag_sublist t s with ⟨sub, h1, h2⟩
      exact ⟨sub, h1, h2.trans (List.sublist_cons_self row t)⟩
    · have hstep : insertEncDiag s row =
          { s with encounterDiagnoses := s.encounterDiagnoses ++ [row] } := by
        unfold insertEncDiag
        rw [if_neg hc]
      rw [hstep]
      rcases foldl_insertEncDiag_sublist t
        { s with encounterDiagnoses := s.encounterDiagnoses ++ [row] } with ⟨sub, h1, h2⟩
      refine ⟨row :: sub, ?_, h2.cons₂ row⟩
      rw [h1]
      dsimp only
      rw [List.append_assoc]
      rfl

/-- Rows present before the diagnosis-insert loop survive it. -/
theorem foldl_insertEncDiag_mono (l : List EncounterDiagnosis) (s : Store)
    (d : EncounterDiagnosis) (hd : d ∈ s.encounterDiagnoses) :
    d ∈ (l.foldl insertEncDiag s).encounterDiagnoses := by
  rcases foldl_insertEncDiag_sublist l s with ⟨sub, h1, _⟩
  rw [h1]
  exact List.mem_append_left _ hd

/-- A row whose (encounter, diagnosis) key is hit neither by the store nor
by any earlier row of the loop is inserted. -/
theorem foldl_insertEncDiag_first :
    ∀ (l₁ : List EncounterDiagnosis) (s : Store) (x : EncounterDiagnosis)
      (l₂ : List EncounterDiagnosis),
      (∀ y ∈ s.encounterDiagnoses, ¬(y.encounter_id = x.encounter_id ∧
        y.diagnosis_id = x.diagnosis_id)) →
      (∀ y ∈ l₁, ¬(y.encounter_id = x.encounter_id ∧ y.diagnosis_id = x.diagnosis_id)) →
      x ∈ ((l₁ ++ x :: l₂).foldl insertEncDiag s).encounterDiagnoses
  | [], s, x, l₂, hs, _ => by
    rw [List.nil_append, List.foldl_cons]
    have hcond : ¬(s.encounterDiagnoses.any (fun y =>
        decide (y.encounter_id = x.encounter_id) &&
        decide (y.diagnosis_id = x.diagnosis_id)) = true) := by
      rw [List.any_eq_true]
      rintro ⟨y, hy, hp⟩
      simp only [Bool.and_eq_true, decide_eq_true_eq] at hp
      exact hs y hy hp
    have hstep : insertEncDiag s x =
        { s with encounterDiagnoses := s.encounterDiagnoses ++ [x] } := by
      unfold insertEncDiag
      rw [if_neg hcond]
    rw [hstep]
    exact foldl_insertEncDiag_mono l₂ _ x
      (List.mem_append_right _ (List.mem_singleton.mpr rfl))
  | y :: l₁, s, x, l₂, hs, hl₁ => by
    rw [List.cons_append, List.foldl_cons]
    have hy := hl₁ y (List.mem_cons_self y l₁)
    have hl₁2 := fun z hz => hl₁ z (List.mem_cons_of_mem y hz)
    by_cases hc : s.encounterDiagnoses.any (fun z =>
        decide (z.encounter_id = y.encounter_id) &&
        decide (z.diagnosis_id = y.diagnosis_id)) = true
    · have hstep : insertEncDiag s y = s := by
        unfold insertEncDiag
        rw [if_pos hc]
      rw [hstep]
      exact foldl_insertEncDiag_first l₁ s x l₂ hs hl₁2
    · have hstep : insertEncDiag s y =
          { s with encounterDiagnoses := s.encounterDiagnoses ++ [y] } := by
        unfold insertEncDiag
        rw [if_neg hc]
      rw [hstep]
      refine foldl_insertEncDiag_first l₁ _ x l₂ ?_ hl₁2
      intro z hz
      dsimp only at hz
      rcases List.mem_append.mp hz with h | h
      · exact hs z h
      · rcases List.mem_singleton.mp h with rfl
        exact hy

/-- Anatomy of one step of the ranked-diagnosis builder: a produced row
records a label that resolved through the mapping and the cache to a truthy
diagnosis id, and carries rank `index + 1` with `is_primary` exactly at
rank 1. -/
theorem diagRow_of_f (cache : List (String × String)) (r : TRecord)
    (p : Nat × String) (d : EncounterDiagnosis)
    (h : (match nihToIcd10 (pyStrip p.2) with
      | none => none
      | some icd =>
        match dictGet cache icd with
        | none => none
        | some did =>
          if did = "" then none
          else
            some ({ encounter_id := nihEncounterId r.src.imageIndex, diagnosis_id := did,
                    diagnosis_rank := p.1 + 1, is_primary := decide (p.1 + 1 = 1) } :
              EncounterDiagnosis)) =
      some d) :
    ∃ icd did, nihToIcd10 (pyStrip p.2) = some icd ∧ dictGet cache icd = some did ∧
      ¬did = "" ∧
      d = { encounter_id := nihEncounterId r.src.imageIndex, diagnosis_id := did,
            diagnosis_rank := p.1 + 1, is_primary := decide (p.1 + 1 = 1) } := by
  split at h
  · exact absurd h (by simp)
  · rename_i icd hicd
    split at h
    · exact absurd h (by simp)
    · rename_i did hdid
      split at h
      · exact absurd h (by simp)
      · rename_i hne
        exact ⟨icd, did, hicd, hdid, hne, (Option.some.inj h).symm⟩

/-- Every generated diagnosis row targets the record's derived encounter id
and is primary exactly at rank 1. -/
theorem diagRowsFor_fields (cache : List (String × String)) (r : TRecord) :
    ∀ d ∈ diagRowsFor cache r,
      d.encounter_id = nihEncounterId r.src.imageIndex ∧
      d.is_primary = decide (d.diagnosis_rank = 1) := by
  intro d hd
  unfold diagRowsFor at hd
  rcases List.mem_filterMap.mp hd with ⟨p, _, hfd⟩
  rcases diagRow_of_f cache r p d hfd with ⟨icd, did, _, _, _, hrow⟩
  rw [hrow]
  exact ⟨rfl, rfl⟩

/-- At most three diagnosis rows are generated per record. -/
theorem diagRowsFor_len_le (cache : List (String × String)) (r : TRecord) :
    (diagRowsFor cache r).length ≤ 3 := by
  unfold diagRowsFor
  refine Nat.le_trans (List.length_filterMap_le _ _) ?_
  rw [List.enum_length]
  exact List.length_take_le 3 r.diagnosisList

/-- A list that is pairwise unrelatable has at most one element. -/
theorem pairwise_false_length_le {l : List α}
    (h : l.Pairwise fun _ _ => False) : l.length ≤ 1 := by
  cases l with
  | nil => exact Nat.zero_le 1
  | cons a t =>
    cases t with
    | nil => exact Nat.le_refl 1
    | cons b t2 =>
      rcases List.pairwise_cons.mp h with ⟨hab, _⟩
      exact absurd (hab b (List.mem_cons_self b t2)) not_false

/-- At most one generated diagnosis row per record is primary. -/
theorem diagRowsFor_primary_le_one (cache : List (String × String)) (r : TRecord) :
    ((diagRowsFor cache r).filter fun d => d.is_primary).length ≤ 1 := by
  have henum : ∀ (l : List String) (n : Nat),
      (List.enumFrom n l).Pairwise fun a b => a.1 < b.1 := by
    intro l
    induction l with
    | nil => intro n; exact List.Pairwise.nil
    | cons a t ih =>
      intro n
      refine List.pairwise_cons.mpr ⟨?_, ih (n + 1)⟩
      intro q hq
      exact Nat.lt_of_lt_of_le (Nat.lt_succ_self n) (List.le_fst_of_mem_enumFrom hq)
  have hpw : (diagRowsFor cache r).Pairwise
      fun a b => ¬(a.is_primary = true ∧ b.is_primary = true) := by
    unfold diagRowsFor
    refine List.Pairwise.filterMap _ ?_ (henum (r.diagnosisList.take 3) 0)
    intro a b hab x hx y hy
    rcases diagRow_of_f cache r a x (Option.mem_def.mp hx) with ⟨_, _, _, _, _, hxr⟩
    rcases diagRow_of_f cache r b y (Option.mem_def.mp hy) with ⟨_, _, _, _, _, hyr⟩
    rintro ⟨hxp, hyp⟩
    rw [hxr] at hxp
    rw [hyr] at hyp
    simp only [decide_eq_true_eq] at hxp hyp
    omega
  have hflt : ((diagRowsFor cache r).filter fun d => d.is_primary).Pairwise
      fun _ _ => False := by
    refine List.Pairwise.imp_of_mem ?_ (List.Pairwise.filter _ hpw)
    intro a b ha hb hr
    exact hr ⟨(List.mem_filter.mp ha).2, (List.mem_filter.mp hb).2⟩
  exact pairwise_false_length_le hflt

/-- When the first pipe-delimited label resolves through mapping and cache,
the generated row list starts with the primary rank-1 row. -/
theorem diagRowsFor_head (cache : List (String × String)) (r : TRecord)
    (a : String) (t : List String) (hdl : r.diagnosisList = a :: t)
    (icd did : String) (hicd : nihToIcd10 (pyStrip a) = some icd)
    (hdid : dictGet cache icd = some did) (hne : ¬did = "") :
    ∃ tail, diagRowsFor cache r =
      { encounter_id := nihEncounterId r.src.imageIndex, diagnosis_id := did,
        diagnosis_rank := 1, is_primary := true } :: tail := by
  unfold diagRowsFor
  rw [hdl]
  rw [show List.take 3 (a :: t) = a :: List.take 2 t from rfl]
  rw [show (a :: List.take 2 t).enum =
    ((0 : Nat), a) :: List.enumFrom 1 (List.take 2 t) from rfl]
  refine ⟨_, List.filterMap_cons_some ?_⟩
  show (match nihToIcd10 (pyStrip a) with
    | none => none
    | some icd =>
      match dictGet cache icd with
      | none => none
      | some did =>
        if did = "" then none
        else
          some ({ encounter_id := nihEncounterId r.src.imageIndex, diagnosis_id := did,
                  diagnosis_rank := 0 + 1, is_primary := decide (0 + 1 = 1) } :
            EncounterDiagnosis)) =
    some ({ encounter_id := nihEncounterId r.src.imageIndex, diagnosis_id := did,
            diagnosis_rank := 1, is_primary := true } : EncounterDiagnosis)
  rw [hicd]
  simp only [hdid]
  rw [if_neg hne]
  rfl

/-- Within one `_load_batch_optimized` call, the `encounter_diagnoses` table
grows by a sublist of the generated ranked diagnosis rows. -/
theorem loadBatch_encDiag_form (cache : List (String × String)) (facIds : List String)
    (now : Nat) (o : Oracle) (acc : Store × Stats) (batch : List TRecord) :
    ∃ sub, (loadBatch cache facIds now o acc batch).1.encounterDiagnoses =
      acc.1.encounterDiagnoses ++ sub ∧
      sub.Sublist ((batch.map (diagRowsFor cache)).flatten) := by
  unfold loadBatch
  dsimp only
  rw [foldl_insertReport_encDiag]
  obtain ⟨sub, h1, h2⟩ := foldl_insertEncDiag_sublist
    ((batch.map (diagRowsFor cache)).flatten)
    (batch.foldl (fun s r => insertProcedure s (nihEncounterId r.src.imageIndex) r.procCode
        r.modality r.src.viewPosition)
      ((batch.map fun r => mkEncounter facIds o r
          ((dictGet (bulkCreatePatients acc.1 now batch).pmap r.src.patientID).getD "")).foldl
        insertEncounter (bulkCreatePatients acc.1 now batch).store))
  refine ⟨sub, ?_, h2⟩
  rw [h1, foldl_insertProcedure_encDiag, foldl_insertEncounter_encDiag,
    bulkCreatePatients_encDiag]

/-- A generated diagnosis row whose (encounter, diagnosis) key is hit neither
by the pre-existing table nor by any earlier generated row is inserted by
`_load_batch_optimized`. -/
theorem loadBatch_encDiag_first (cache : List (String × String)) (facIds : List String)
    (now : Nat) (o : Oracle) (acc : Store × Stats) (batch : List TRecord)
    (x : EncounterDiagnosis) (l₁ l₂ : List EncounterDiagnosis)
    (hdec : (batch.map (diagRowsFor cache)).flatten = l₁ ++ x :: l₂)
    (hs : ∀ y ∈ acc.1.encounterDiagnoses, ¬(y.encounter_id = x.encounter_id ∧
      y.diagnosis_id = x.diagnosis_id))
    (hl : ∀ y ∈ l₁, ¬(y.encounter_id = x.encounter_id ∧ y.diagnosis_id = x.diagnosis_id)) :
    x ∈ (loadBatch cache facIds now o acc batch).1.encounterDiagnoses := by
  unfold loadBatch
  dsimp only
  rw [foldl_insertReport_encDiag, hdec]
  refine foldl_insertEncDiag_first l₁ _ x l₂ ?_ hl
  rw [foldl_insertProcedure_encDiag, foldl_insertEncounter_encDiag,
    bulkCreatePatients_encDiag]
  exact hs

/-- C7 is wrong as stated: a record whose first finding label maps to an
ICD-10 code absent from the part-1 diagnosis catalog (here `Atelectasis` →
`J98.11`) yields an encounter with no primary diagnosis row at all — its
only surviving row is the secondary rank-2 one. -/
theorem C7_primary_diagnosis_counterexample :
    ((run freshStore 0 zeroOracle [recAtelectasis]).1.encounters.map (·.encounter_id)) =
      ["NIH_00000001_000_ENC"] ∧
    ((run freshStore 0 zeroOracle [recAtelectasis]).1.encounterDiagnoses.map
      fun d => (d.encounter_id, d.diagnosis_id, d.diagnosis_rank, d.is_primary)) =
      [("NIH_00000001_000_ENC", "DIAG037", 2, false)] ∧
    ((run freshStore 0 zeroOracle [recAtelectasis]).1.encounterDiagnoses.filter
      fun d => d.is_primary).length = 0 :=
  ⟨rfl, rfl, rfl⟩

/-- C7 (amended): for a duplicate-free batch whose records derive pairwise
distinct encounter ids, none of which carries a pre-existing diagnosis row,
every record of the batch ends the load with at most 3 `encounter_diagnoses`
rows for its encounter, every such row primary exactly at rank 1, at most
one primary row — and exactly one primary row precisely when the record's
first pipe-delimited finding label resolves through `NIH_TO_ICD10_MAPPING`
and the diagnosis cache to a truthy diagnosis id. -/
theorem C7_primary_diagnosis_invariant (cache : List (String × String))
    (facIds : List String) (now : Nat) (o : Oracle) (acc : Store × Stats)
    (batch : List TRecord) (hnd : batch.Nodup)
    (hinj : ∀ r₁ ∈ batch, ∀ r₂ ∈ batch,
      nihEncounterId r₁.src.imageIndex = nihEncounterId r₂.src.imageIndex → r₁ = r₂)
    (hpre : ∀ d ∈ acc.1.encounterDiagnoses, ∀ r ∈ batch,
      d.encounter_id ≠ nihEncounterId r.src.imageIndex) :
    ∀ r ∈ batch,
      (((loadBatch cache facIds now o acc batch).1.encounterDiagnoses.filter fun d =>
        decide (d.encounter_id = nihEncounterId r.src.imageIndex)).length ≤ 3) ∧
      (∀ d ∈ (loadBatch cache facIds now o acc batch).1.encounterDiagnoses,
        d.encounter_id = nihEncounterId r.src.imageIndex →
        d.is_primary = decide (d.diagnosis_rank = 1)) ∧
      (((loadBatch cache facIds now o acc batch).1.encounterDiagnoses.filter fun d =>
        d.is_primary && decide (d.encounter_id = nihEncounterId r.src.imageIndex)).length
          ≤ 1) ∧
      ((((loadBatch cache facIds now o acc batch).1.encounterDiagnoses.filter fun d =>
        d.is_primary && decide (d.encounter_id = nihEncounterId r.src.imageIndex)).length
          = 1) ↔
        ∃ icd did, nihToIcd10 (pyStrip (r.diagnosisList.headD "")) = some icd ∧
          dictGet cache icd = some did ∧ ¬did = "") := by
  intro r hr
  rcases List.append_of_mem hr with ⟨b₁, b₂, hb⟩
  have hnd2 := hnd
  rw [hb] at hnd2
  rcases List.nodup_append.mp hnd2 with ⟨hnd₁, hndc, hdisj⟩
  have hrnb₁ : r ∉ b₁ := fun hx => hdisj hx (List.mem_cons_self r b₂)
  have hrnb₂ : r ∉ b₂ := (List.nodup_cons.mp hndc).1
  have hacc : ∀ y ∈ acc.1.encounterDiagnoses,
      y.encounter_id ≠ nihEncounterId r.src.imageIndex := fun y hy => hpre y hy r hr
  have hA : ∀ y ∈ (b₁.map (diagRowsFor cache)).flatten,
      y.encounter_id ≠ nihEncounterId r.src.imageIndex := by
    intro y hy heq
    rcases List.mem_flatten.mp hy with ⟨blk, hblk, hyb⟩
    rcases List.mem_map.mp hblk with ⟨r2, hr2m, rfl⟩
    have h1 := (diagRowsFor_fields cache r2 y hyb).1
    have hrr : r2 = r := by
      refine hinj r2 ?_ r hr ?_
      · rw [hb]
        exact List.mem_append_left _ hr2m
      · rw [← h1, heq]
    exact hrnb₁ (hrr ▸ hr2m)
  have hB : ∀ y ∈ (b₂.map (diagRowsFor cache)).flatten,
      y.encounter_id ≠ nihEncounterId r.src.imageIndex := by
    intro y hy heq
    rcases List.mem_flatten.mp hy with ⟨blk, hblk, hyb⟩
    rcases List.mem_map.mp hblk with ⟨r2, hr2m, rfl⟩
    have h1 := (diagRowsFor_fields cache r2 y hyb).1
    have hrr : r2 = r := by
      refine hinj r2 ?_ r hr ?_
      · rw [hb]
        exact List.mem_append_right _ (List.mem_cons_of_mem _ hr2m)
      · rw [← h1, heq]
    exact hrnb₂ (hrr ▸ hr2m)
  have hD : (batch.map (diagRowsFor cache)).flatten =
      (b₁.map (diagRowsFor cache)).flatten ++
        (diagRowsFor cache r ++ (b₂.map (diagRowsFor cache)).flatten) := by
    rw [hb, List.map_append, List.map_cons, List.flatten_append, List.flatten_cons]
  have hDP : ((batch.map (diagRowsFor cache)).flatten.filter fun d =>
      decide (d.encounter_id = nihEncounterId r.src.imageIndex)) =
      diagRowsFor cache r := by
    have e1 : ((b₁.map (diagRowsFor cache)).flatten.filter fun d =>
        decide (d.encounter_id = nihEncounterId r.src.imageIndex)) = [] :=
      List.filter_eq_nil_iff.mpr (by
        intro y hy
        simp only [decide_eq_true_eq]
        exact hA y hy)
    have e2 : ((diagRowsFor cache r).filter fun d =>
        decide (d.encounter_id = nihEncounterId r.src.imageIndex)) =
        diagRowsFor cache r :=
      List.filter_eq_self.mpr fun d hd =>
        decide_eq_true ((diagRowsFor_fields cache r d hd).1)
    have e3 : ((b₂.map (diagRowsFor cache)).flatten.filter fun d =>
        decide (d.encounter_id = nihEncounterId r.src.imageIndex)) = [] :=
      List.filter_eq_nil_iff.mpr (by
        intro y hy
        simp only [decide_eq_true_eq]
        exact hB y hy)
    rw [hD, List.filter_append, List.filter_append, e1, e2, e3,
      List.nil_append, List.append_nil]
  obtain ⟨sub, hrows, hsub⟩ := loadBatch_encDiag_form cache facIds now o acc batch
  have haccP : (acc.1.encounterDiagnoses.filter fun d =>
      decide (d.encounter_id = nihEncounterId r.src.imageIndex)) = [] :=
    List.filter_eq_nil_iff.mpr (by
      intro y hy
      simp only [decide_eq_true_eq]
      exact hacc y hy)
  have haccQ : (acc.1.encounterDiagnoses.filter fun d =>
      d.is_primary && decide (d.encounter_id = nihEncounterId r.src.imageIndex)) = [] :=
    List.filter_eq_nil_iff.mpr (by
      intro y hy
      simp only [Bool.and_eq_true, decide_eq_true_eq]
      rintro ⟨_, h2⟩
      exact hacc y hy h2)
  have hDQ : ((batch.map (diagRowsFor cache)).flatten.filter fun d =>
      d.is_primary && decide (d.encounter_id = nihEncounterId r.src.imageIndex)) =
      (diagRowsFor cache r).filter fun d => d.is_primary := by
    rw [← List.filter_filter, hDP]
  have hle1 : (((loadBatch cache facIds now o acc batch).1.encounterDiagnoses.filter
      fun d => d.is_primary &&
        decide (d.encounter_id = nihEncounterId r.src.imageIndex)).length ≤ 1) := by
    rw [hrows, List.filter_append, haccQ, List.nil_append]
    refine Nat.le_trans (List.Sublist.length_le (List.Sublist.filter _ hsub)) ?_
    rw [hDQ]
    exact diagRowsFor_primary_le_one cache r
  refine ⟨?_, ?_, hle1, ?_⟩
  · rw [hrows, List.filter_append, haccP, List.nil_append]
    refine Nat.le_trans (List.Sublist.length_le (List.Sublist.filter _ hsub)) ?_
    rw [hDP]
    exact diagRowsFor_len_le cache r
  · intro d hd hdE
    rw [hrows] at hd
    rcases List.mem_append.mp hd with h | h
    · exact absurd hdE (hacc d h)
    · have hdr : d ∈ diagRowsFor cache r := by
        rw [← hDP]
        exact List.mem_filter.mpr ⟨hsub.subset h, decide_eq_true hdE⟩
      exact (diagRowsFor_fields cache r d hdr).2
  · constructor
    · intro hlen
      obtain ⟨d, hdmem⟩ := List.exists_mem_of_length_pos
        (by rw [hlen]; exact Nat.one_pos)
      have hdm := List.mem_filter.mp hdmem
      have hQ := hdm.2
      simp only [Bool.and_eq_true, decide_eq_true_eq] at hQ
      have hd := hdm.1
      rw [hrows] at hd
      rcases List.mem_append.mp hd with h | h
      · exact absurd hQ.2 (hacc d h)
      · have hdr : d ∈ diagRowsFor cache r := by
          rw [← hDP]
          exact List.mem_filter.mpr ⟨hsub.subset h, decide_eq_true hQ.2⟩
        unfold diagRowsFor at hdr
        rcases List.mem_filterMap.mp hdr with ⟨p, hp, hfd⟩
        rcases diagRow_of_f cache r p d hfd with ⟨icd, did, hicd, hdid, hne, hrow⟩
        have hp1 : p.1 = 0 := by
          have h3 := hQ.1
          rw [hrow] at h3
          simp only [decide_eq_true_eq] at h3
          omega
        have hget := List.mem_enum_iff_getElem?.mp hp
        rw [hp1] at hget
        rw [List.getElem?_take] at hget
        rw [if_pos (by omega)] at hget
        cases hdl : r.diagnosisList with
        | nil =>
          rw [hdl] at hget
          cases hget
        | cons a t =>
          rw [hdl] at hget
          rw [List.getElem?_cons_zero] at hget
          have hpa : p.2 = a := (Option.some.inj hget).symm
          refine ⟨icd, did, ?_, hdid, hne⟩
          rw [hpa] at hicd
          exact hicd
    · rintro ⟨icd, did, hicd, hdid, hne⟩
      cases hdl : r.diagnosisList with
      | nil =>
        exfalso
        rw [hdl] at hicd
        rw [show nihToIcd10 (pyStrip (([] : List String).headD "")) = none from rfl]
          at hicd
        cases hicd
      | cons a t =>
        have hicd2 : nihToIcd10 (pyStrip a) = some icd := by
          rw [hdl] at hicd
          exact hicd
        obtain ⟨tail, hsplit⟩ := diagRowsFor_head cache r a t hdl icd did hicd2 hdid hne
        have hxmem : EncounterDiagnosis.mk (nihEncounterId r.src.imageIndex) did 1 true ∈
            (loadBatch cache facIds now o acc batch).1.encounterDiagnoses := by
          refine loadBatch_encDiag_first cache facIds now o acc batch _
            ((b₁.map (diagRowsFor cache)).flatten)
            (tail ++ (b₂.map (diagRowsFor cache)).flatten) ?_ ?_ ?_
          · rw [hD, hsplit, List.cons_append]
          · intro y hy
            rintro ⟨h1, _⟩
            exact hacc y hy h1
          · intro y hy
            rintro ⟨h1, _⟩
            exact hA y hy h1
        have hge : 0 < (((loadBatch cache facIds now o acc batch).1.encounterDiagnoses.filter
            fun d => d.is_primary &&
              decide (d.encounter_id = nihEncounterId r.src.imageIndex)).length) :=
          List.length_pos.mpr (List.ne_nil_of_mem (List.mem_filter.mpr ⟨hxmem, by simp⟩))
        omega

/-- Witness for C7 (amended): a concrete singleton batch (first label
`Effusion`, which resolves to `DIAG037`) against a fresh store. -/
theorem C7_primary_diagnosis_invariant_witness :
    (((loadBatch (diagCache freshStore) ["FAC000001"] 0 zeroOracle
        (freshStore, Stats.init) [mkTRecord recEffusion 0]).1.encounterDiagnoses.filter
      fun d => decide (d.encounter_id =
        nihEncounterId (mkTRecord recEffusion 0).src.imageIndex)).length ≤ 3) ∧
    (∀ d ∈ (loadBatch (diagCache freshStore) ["FAC000001"] 0 zeroOracle
        (freshStore, Stats.init) [mkTRecord recEffusion 0]).1.encounterDiagnoses,
      d.encounter_id = nihEncounterId (mkTRecord recEffusion 0).src.imageIndex →
      d.is_primary = decide (d.diagnosis_rank = 1)) ∧
    (((loadBatch (diagCache freshStore) ["FAC000001"] 0 zeroOracle
        (freshStore, Stats.init) [mkTRecord recEffusion 0]).1.encounterDiagnoses.filter
      fun d => d.is_primary && decide (d.encounter_id =
        nihEncounterId (mkTRecord recEffusion 0).src.imageIndex)).length ≤ 1) ∧
    ((((loadBatch (diagCache freshStore) ["FAC000001"] 0 zeroOracle
        (freshStore, Stats.init) [mkTRecord recEffusion 0]).1.encounterDiagnoses.filter
      fun d => d.is_primary && decide (d.encounter_id =
        nihEncounterId (mkTRecord recEffusion 0).src.imageIndex)).length = 1) ↔
      ∃ icd did, nihToIcd10 (pyStrip ((mkTRecord recEffusion 0).diagnosisList.headD "")) =
        some icd ∧ dictGet (diagCache freshStore) icd = some did ∧ ¬did = "") :=
  C7_primary_diagnosis_invariant (diagCache freshStore) ["FAC000001"] 0 zeroOracle
    (freshStore, Stats.init) [mkTRecord recEffusion 0]
    (List.nodup_singleton _)
    (by
      intro r₁ h₁ r₂ h₂ _
      rw [List.mem_singleton.mp h₁, List.mem_singleton.mp h₂])
    (by
      intro d hd
      exact absurd hd (List.not_mem_nil d))
    (mkTRecord recEffusion 0) (List.mem_singleton.mpr rfl)

end EHealth
